import Mathlib

/-!
Verification of the transfer reassembler of
`pyuavcan/transport/commons/high_overhead_transport/_transfer_reassembler.py`.

The Python module is shallowly embedded below: payload bytes are `Nat`s
(`0 ≤ b < 256` on the wire), timestamps carry their two nanosecond counters
as naturals, the transfer-ID is an unbounded natural, Python `int`
arithmetic that may go negative is carried out in `Int`, and the
`on_error` callback is modelled by recording, in order, every reported
error together with the full reassembler state observable at the moment
of the callback.
-/

/-- Timestamp: pair of system-ns and monotonic-ns counters
(`pyuavcan.transport.Timestamp`). -/
structure Timestamp where
  system_ns : Nat
  monotonic_ns : Nat
deriving DecidableEq, Repr

/-- Transfer priority enumeration (`pyuavcan.transport.Priority`).
The reassembler never interprets it; it is only forwarded. -/
inductive Priority where
  | EXCEPTIONAL | IMMEDIATE | FAST | HIGH | NOMINAL | LOW | SLOW | OPTIONAL
deriving DecidableEq, Repr

/-- Input frame (`Frame` from `_frame.py`; the dataclass itself is not in
the sources, its six fields are those listed in the spec's data model). -/
structure Frame where
  timestamp : Timestamp
  priority : Priority
  transfer_id : Nat
  index : Nat
  end_of_transfer : Bool
  payload : List Nat
deriving DecidableEq, Repr

/-- Output transfer (`pyuavcan.transport.TransferFrom`);
`source_node_id = none` for anonymous transfers. -/
structure TransferFrom where
  timestamp : Timestamp
  priority : Priority
  transfer_id : Nat
  fragmented_payload : List (List Nat)
  source_node_id : Option Nat
deriving DecidableEq, Repr

/-- Error states of `TransferReassembler.Error`. -/
inductive ReassemblerError where
  | MULTIFRAME_MISSING_FRAMES
  | MULTIFRAME_INTEGRITY_ERROR
  | MULTIFRAME_EMPTY_FRAME
  | MULTIFRAME_EOT_MISPLACED
  | MULTIFRAME_EOT_INCONSISTENT
  | PAYLOAD_SIZE_EXCEEDS_LIMIT
deriving DecidableEq, Repr

/-- Mutable state of one `TransferReassembler` instance
(fields `_payloads`, `_max_index`, `_timestamp`, `_transfer_id`). -/
structure ReassemblerState where
  payloads : List (List Nat)
  max_index : Option Nat
  timestamp : Timestamp
  transfer_id : Nat
deriving DecidableEq, Repr

/-- Constant configuration of an instance
(fields `_source_node_id`, `_max_payload_size_bytes`). -/
structure Config where
  source_node_id : Nat
  max_payload_size_bytes : Nat
deriving DecidableEq, Repr

/-- One `on_error` callback invocation: the reported error together with
the reassembler state observable while the callback runs. -/
abbrev Obs := ReassemblerError × ReassemblerState

/-- Result of one `process_frame` call: the returned optional transfer,
the `on_error` invocations in order, and the state after the call. -/
structure StepResult where
  transfer : Option TransferFrom
  errors : List Obs
  state : ReassemblerState
deriving DecidableEq, Repr

/-! ## CRC primitive

Modelled from the spec: the CRC primitive (`TransferCRC` from
`_common.py`) is not among the sources; the spec fixes its contract as
(a) initialization, (b) incremental absorption of ordered byte slices,
(c) emission of the final value as bytes in little-endian order, and
(d) a residue check after absorbing payload plus appended CRC.  The
module's own unit test `_unittest_drop_crc` fixes the width at 4 bytes
(`_drop_crc([b'0123456789']) == [b'012345']`), which identifies the
primitive as the 32-bit CRC-32C (Castagnoli) used by pyuavcan's
high-overhead transports, embedded bitwise below. -/

/-- Reflected CRC-32C polynomial. -/
def crcPoly : Nat := 0x82F63B78

/-- One bit step of the reflected CRC register update. -/
def crcBitStep (c : Nat) : Nat := if c % 2 = 1 then (c / 2) ^^^ crcPoly else c / 2

/-- Absorb one byte into the CRC register. -/
def crcByteStep (c b : Nat) : Nat := crcBitStep^[8] (c ^^^ (b % 256))

/-- Absorb a byte slice into the CRC register (`TransferCRC.add`). -/
def crcAdd (c : Nat) (bytes : List Nat) : Nat := bytes.foldl crcByteStep c

/-- CRC register value after absorbing a list of fragments starting from
the initial register (`TransferCRC.new(*fragments)`). -/
def crcNewFragments (fragments : List (List Nat)) : Nat :=
  fragments.foldl crcAdd 0xFFFFFFFF

/-- Final CRC value (`TransferCRC.value`): register xor-out. -/
def crcValue (c : Nat) : Nat := c ^^^ 0xFFFFFFFF

/-- Final CRC value serialized little-endian (`TransferCRC.value_as_bytes`). -/
def crcValueAsBytes (c : Nat) : List Nat :=
  [crcValue c % 256, crcValue c / 256 % 256, crcValue c / 65536 % 256,
   crcValue c / 16777216 % 256]

/-- Residue check (`TransferCRC.check_residue`): after absorbing the whole
payload including the appended CRC bytes the register equals the CRC-32C
residue constant. -/
def checkResidue (c : Nat) : Bool := c == 0xB798B438

/-- `_CRC_SIZE_BYTES = len(TransferCRC().value_as_bytes)`. -/
def CRC_SIZE_BYTES : Nat := (crcValueAsBytes (crcNewFragments [])).length

/-! ## CRC-tail trimmer (`_drop_crc`) -/

/-- Tail-removal loop of `_drop_crc`, acting on the reversed fragment
list: `r` is the number of bytes still to remove from the tail. -/
def dropCrcAux (r : Nat) : List (List Nat) → List (List Nat)
  | [] => []
  | f :: rest =>
    if r = 0 then f :: rest
    else if f.length ≤ r then dropCrcAux (r - f.length) rest
    else f.take (f.length - r) :: rest

/-- `_drop_crc`: remove exactly `_CRC_SIZE_BYTES` bytes from the tail of
the fragment list, popping or shrinking trailing fragments. -/
def dropCrc (fragments : List (List Nat)) : List (List Nat) :=
  (dropCrcAux CRC_SIZE_BYTES fragments.reverse).reverse

/-! ## Finalizer (`_validate_and_finalize_transfer`) -/

/-- `_validate_and_finalize_transfer`: a single fragment is returned
verbatim; two or more fragments require total length above the CRC size
and a passing residue check, after which the CRC tail is trimmed. -/
def validateAndFinalizeTransfer (ts : Timestamp) (prio : Priority) (tid : Nat)
    (frame_payloads : List (List Nat)) (source_node_id : Nat) : Option TransferFrom :=
  if 1 < frame_payloads.length then
    if CRC_SIZE_BYTES < (frame_payloads.map List.length).sum ∧
        checkResidue (crcNewFragments frame_payloads) = true then
      some ⟨ts, prio, tid, dropCrc frame_payloads, some source_node_id⟩
    else none
  else some ⟨ts, prio, tid, frame_payloads, some source_node_id⟩

/-! ## Reassembler state machine -/

/-- Initial state set up by `__init__`: no payloads, unknown max index,
zero timestamp, transfer-ID zero. -/
def initState : ReassemblerState :=
  { payloads := [], max_index := none, timestamp := ⟨0, 0⟩, transfer_id := 0 }

/-- `_restart`: report the optional error through the callback (observing
the pre-reset state), then reset the state for the next transfer. -/
def ReassemblerState.restart (s : ReassemblerState) (ts : Timestamp) (tid : Nat)
    (error : Option ReassemblerError) : List Obs × ReassemblerState :=
  ((match error with | some e => [(e, s)] | none => []),
   { payloads := [], max_index := none, timestamp := ts, transfer_id := tid })

/-- `_pure_payload_size_bytes`: sum of stored fragment lengths, minus the
CRC size when more than one fragment is held; may be negative. -/
def pureSize (payloads : List (List Nat)) : Int :=
  ((payloads.map List.length).sum : Int) -
    (if 1 < payloads.length then (CRC_SIZE_BYTES : Int) else 0)

/-- Fragment storage of `process_frame`: grow `payloads` with empty
sentinels until it can hold `index`, then place the payload there. -/
def storeAt (payloads : List (List Nat)) (index : Nat) (p : List Nat) :
    List (List Nat) :=
  (payloads ++ List.replicate (index + 1 - payloads.length) []).set index p

/-- Steps of `process_frame` after the max-index bookkeeping: the
past-the-end check followed by fragment storage.  `Except.error` carries
the full early-return result. -/
def stepStore (f : Frame) (obs1 : List Obs) (s2 : ReassemblerState) :
    Except StepResult (List Obs × ReassemblerState) :=
  match s2.max_index with
  | some m =>
    if (m : Int) < max (f.index : Int) ((s2.payloads.length : Int) - 1) then
      let (obs2, s') := s2.restart f.timestamp (f.transfer_id + 1)
        (some .MULTIFRAME_EOT_MISPLACED)
      .error ⟨none, obs1 ++ obs2, s'⟩
    else .ok (obs1, { s2 with payloads := storeAt s2.payloads f.index f.payload })
  | none => .ok (obs1, { s2 with payloads := storeAt s2.payloads f.index f.payload })

/-- Steps of `process_frame` after the new-transfer detection: stale-frame
drop, end-of-transfer bookkeeping, then `stepStore`. -/
def phase1Tail (f : Frame) (obs1 : List Obs) (s1 : ReassemblerState) :
    Except StepResult (List Obs × ReassemblerState) :=
  if f.transfer_id < s1.transfer_id then .error ⟨none, obs1, s1⟩
  else if f.end_of_transfer then
    match s1.max_index with
    | some m =>
      if m ≠ f.index then
        let (obs2, s') := s1.restart f.timestamp (f.transfer_id + 1)
          (some .MULTIFRAME_EOT_INCONSISTENT)
        .error ⟨none, obs1 ++ obs2, s'⟩
      else stepStore f obs1 { s1 with max_index := some f.index }
    | none => stepStore f obs1 { s1 with max_index := some f.index }
  else stepStore f obs1 s1

/-- Steps (a)–(f) of `process_frame`: malformed-empty-frame drop,
new-transfer detection, stale drop, end-of-transfer bookkeeping,
past-the-end check, fragment storage. -/
def phase1 (f : Frame) (transfer_id_timeout : Int) (s : ReassemblerState) :
    Except StepResult (List Obs × ReassemblerState) :=
  if ¬(f.index = 0 ∧ f.end_of_transfer = true) ∧ f.payload = [] then
    .error ⟨none, [(.MULTIFRAME_EMPTY_FRAME, s)], s⟩
  else
    let r1 :=
      if s.transfer_id < f.transfer_id ∨
          transfer_id_timeout <
            (f.timestamp.monotonic_ns : Int) - (s.timestamp.monotonic_ns : Int) then
        s.restart f.timestamp f.transfer_id
          (if s.payloads = [] then none else some .MULTIFRAME_MISSING_FRAMES)
      else ([], s)
    phase1Tail f r1.1 r1.2

/-- Steps (g)–(h) of `process_frame`: payload-size ceiling, completion
test, finalization and the closing restart; an early return from the
preceding steps is passed through unchanged. -/
def phase2 (cfg : Config) (f : Frame) :
    Except StepResult (List Obs × ReassemblerState) → StepResult
  | .error r => r
  | .ok (obs, s3) =>
    if (cfg.max_payload_size_bytes : Int) < pureSize s3.payloads then
      let (obs2, s4) := s3.restart f.timestamp (f.transfer_id + 1)
        (some .PAYLOAD_SIZE_EXCEEDS_LIMIT)
      ⟨none, obs ++ obs2, s4⟩
    else
      match s3.max_index with
      | none => ⟨none, obs, s3⟩
      | some m =>
        if 0 < m ∧ ¬ s3.payloads.all (fun p => !p.isEmpty) = true then
          ⟨none, obs, s3⟩
        else
          match validateAndFinalizeTransfer s3.timestamp f.priority f.transfer_id
              s3.payloads cfg.source_node_id with
          | some tr =>
            let (obs2, s4) := s3.restart f.timestamp (f.transfer_id + 1) none
            ⟨some tr, obs ++ obs2, s4⟩
          | none =>
            let (obs2, s4) := s3.restart f.timestamp (f.transfer_id + 1)
              (some .MULTIFRAME_INTEGRITY_ERROR)
            ⟨none, obs ++ obs2, s4⟩

/-- `TransferReassembler.process_frame`: the full ordered decision
procedure, returning the optional completed transfer, the `on_error`
invocations, and the state after the call. -/
def processFrame (cfg : Config) (f : Frame) (transfer_id_timeout : Int)
    (s : ReassemblerState) : StepResult :=
  phase2 cfg f (phase1 f transfer_id_timeout s)

/-- `TransferReassembler.construct_anonymous_transfer`. -/
def constructAnonymousTransfer (f : Frame) : Option TransferFrom :=
  if f.index = 0 ∧ f.end_of_transfer = true then
    some ⟨f.timestamp, f.priority, f.transfer_id, [f.payload], none⟩
  else none

/-- Process a list of frames in order, collecting every emitted transfer
and every `on_error` invocation. -/
def runFrames (cfg : Config) (transfer_id_timeout : Int) :
    List Frame → ReassemblerState →
    List TransferFrom × List Obs × ReassemblerState
  | [], s => ([], [], s)
  | f :: rest, s =>
    let r := processFrame cfg f transfer_id_timeout s
    let t := runFrames cfg transfer_id_timeout rest r.state
    (r.transfer.toList ++ t.1, r.errors ++ t.2.1, t.2.2)

/-! ## Properties of the CRC-tail trimmer -/

set_option maxRecDepth 1000000

theorem flatten_length_reverse (l : List (List Nat)) :
    l.reverse.flatten.length = l.flatten.length := by
  simp [List.length_flatten, List.sum_reverse]

theorem dropCrcAux_flatten (rl : List (List Nat)) : ∀ r : Nat,
    (dropCrcAux r rl).reverse.flatten =
      rl.reverse.flatten.take (rl.reverse.flatten.length - r) := by
  induction rl with
  | nil => intro r; simp [dropCrcAux]
  | cons f rest ih =>
    intro r
    by_cases hr : r = 0
    · subst hr
      simp [dropCrcAux]
    · by_cases hf : f.length ≤ r
      · rw [dropCrcAux, if_neg hr, if_pos hf, ih]
        simp only [List.reverse_cons, List.flatten_append, List.flatten_cons,
          List.flatten_nil, List.append_nil, List.take_append_eq_append_take,
          List.length_append, List.length_take]
        have h1 : rest.reverse.flatten.length + f.length - r ≤ rest.reverse.flatten.length := by
          omega
        have h2 : rest.reverse.flatten.length - (r - f.length) =
            rest.reverse.flatten.length + f.length - r := by omega
        have h3 : rest.reverse.flatten.length + f.length - r - rest.reverse.flatten.length = 0 := by
          omega
        rw [h2, h3]
        simp
      · rw [dropCrcAux, if_neg hr, if_neg hf]
        simp only [List.reverse_cons, List.flatten_append, List.flatten_cons,
          List.flatten_nil, List.append_nil, List.take_append_eq_append_take,
          List.length_append]
        have h1 : rest.reverse.flatten.length ≤ rest.reverse.flatten.length + f.length - r := by
          omega
        rw [List.take_of_length_le h1]
        have h2 : rest.reverse.flatten.length + f.length - r - rest.reverse.flatten.length =
            f.length - r := by omega
        rw [h2]

theorem dropCrc_flatten (l : List (List Nat)) :
    (dropCrc l).flatten = l.flatten.take (l.flatten.length - CRC_SIZE_BYTES) := by
  have h := dropCrcAux_flatten l.reverse CRC_SIZE_BYTES
  simpa [dropCrc, List.reverse_reverse] using h

theorem dropCrcAux_eq_nil (rl : List (List Nat)) : ∀ r : Nat,
    rl.flatten.length < r → dropCrcAux r rl = [] := by
  induction rl with
  | nil => intro r _; rfl
  | cons f rest ih =>
    intro r h
    simp only [List.flatten_cons, List.length_append] at h
    rw [dropCrcAux, if_neg (by omega : ¬ r = 0), if_pos (by omega : f.length ≤ r)]
    exact ih _ (by omega)

theorem dropCrc_eq_nil_of_short (l : List (List Nat))
    (h : l.flatten.length < CRC_SIZE_BYTES) : dropCrc l = [] := by
  have h' : l.reverse.flatten.length < CRC_SIZE_BYTES := by
    rwa [flatten_length_reverse]
  simp [dropCrc, dropCrcAux_eq_nil _ _ h']

theorem dropCrcAux_shape (rl : List (List Nat)) : ∀ r : Nat,
    dropCrcAux r rl = [] ∨
      ∃ k n, k < rl.length ∧
        dropCrcAux r rl = (rl.getD k []).take n :: rl.drop (k + 1) := by
  induction rl with
  | nil => intro r; left; rfl
  | cons f rest ih =>
    intro r
    by_cases hr : r = 0
    · subst hr
      right
      exact ⟨0, f.length, by simp, by simp [dropCrcAux]⟩
    · by_cases hf : f.length ≤ r
      · rw [dropCrcAux, if_neg hr, if_pos hf]
        rcases ih (r - f.length) with h | ⟨k, n, hk, he⟩
        · left; exact h
        · right
          exact ⟨k + 1, n, by simpa using hk, by simpa using he⟩
      · right
        rw [dropCrcAux, if_neg hr, if_neg hf]
        exact ⟨0, f.length - r, by simp, by simp⟩

theorem dropCrc_shape (l : List (List Nat)) :
    dropCrc l = [] ∨
      ∃ m t, dropCrc l = l.take m ++ [t] ∧ ∃ n, t = (l.getD m []).take n := by
  rcases dropCrcAux_shape l.reverse CRC_SIZE_BYTES with h | ⟨k, n, hk, he⟩
  · left; simp [dropCrc, h]
  · right
    rw [List.length_reverse] at hk
    refine ⟨l.length - 1 - k, (l.getD (l.length - 1 - k) []).take n, ?_, n, rfl⟩
    have hget : l.reverse.getD k [] = l.getD (l.length - 1 - k) [] := by
      rw [List.getD_eq_getElem l.reverse _ (by simpa using hk),
        List.getElem_reverse, List.getD_eq_getElem l _ (by omega)]
    rw [dropCrc, he, hget]
    simp only [List.reverse_cons]
    congr 1
    have := List.reverse_drop (l := l.reverse) (n := k + 1)
    rw [this, List.reverse_reverse, List.length_reverse]
    congr 1
    omega

theorem dropCrcAux_cons_nil (rl : List (List Nat)) (r : Nat) (hr : r ≠ 0) :
    dropCrcAux r ([] :: rl) = dropCrcAux r rl := by
  rw [dropCrcAux, if_neg hr, if_pos (by simp : ([] : List Nat).length ≤ r)]
  simp

theorem dropCrc_append_nil (l : List (List Nat)) :
    dropCrc (l ++ [[]]) = dropCrc l := by
  have h : CRC_SIZE_BYTES ≠ 0 := by decide
  simp only [dropCrc, List.reverse_append, List.reverse_cons, List.reverse_nil,
    List.nil_append, List.singleton_append]
  rw [dropCrcAux_cons_nil _ _ h]

/-- C7: `_drop_crc` keeps the retained fragments in their original order
(the result is a prefix of the input whose last element is a prefix of the
corresponding input fragment); the concatenation of the result is the
concatenation of the input with its last `CRC_SIZE` bytes removed; a total
input length below `CRC_SIZE` yields the empty list; and an empty trailing
fragment is popped without consuming from the removal budget. -/
theorem drop_crc_spec (l : List (List Nat)) :
    (dropCrc l).flatten = l.flatten.take (l.flatten.length - CRC_SIZE_BYTES) ∧
    (l.flatten.length < CRC_SIZE_BYTES → dropCrc l = []) ∧
    (dropCrc l = [] ∨
      ∃ m t, dropCrc l = l.take m ++ [t] ∧ ∃ n, t = (l.getD m []).take n) ∧
    dropCrc (l ++ [[]]) = dropCrc l :=
  ⟨dropCrc_flatten l, dropCrc_eq_nil_of_short l, dropCrc_shape l,
    dropCrc_append_nil l⟩

/-- Witness for C7 at the source's own test vector
`_drop_crc([b'0123456789', b'', b'a', b'b']) == [b'01234567']`. -/
theorem drop_crc_spec_witness :
    dropCrc [[48,49,50,51,52,53,54,55,56,57], [], [97], [98]] =
        [[48,49,50,51,52,53,54,55]] ∧
    dropCrc [[48]] = [] :=
  ⟨by have h := (drop_crc_spec [[48,49,50,51,52,53,54,55,56,57], [], [97], [98]]).1
      decide,
   (drop_crc_spec [[48]]).2.1 (by decide)⟩

/-! ## Width of the transfer-CRC trailer -/

/-- C5 (amended): the transfer CRC is 32 bits wide, i.e. the CRC trailer
occupies exactly 4 bytes (`_CRC_SIZE_BYTES = 4`), and for every emitted
multi-frame transfer exactly 4 bytes are removed from the tail of the
fragment list before emission. -/
theorem crc_trailer_four_bytes :
    CRC_SIZE_BYTES = 4 ∧
    ∀ ts prio tid fps nid tr, 1 < fps.length →
      validateAndFinalizeTransfer ts prio tid fps nid = some tr →
      tr.fragmented_payload.flatten = fps.flatten.take (fps.flatten.length - 4) ∧
      tr.fragmented_payload.flatten.length + 4 = fps.flatten.length := by
  refine ⟨rfl, ?_⟩
  intro ts prio tid fps nid tr h1 h2
  by_cases hc : CRC_SIZE_BYTES < (fps.map List.length).sum ∧
      checkResidue (crcNewFragments fps) = true
  · rw [validateAndFinalizeTransfer, if_pos h1, if_pos hc] at h2
    cases h2
    have hlen : 4 < fps.flatten.length := by
      have := hc.1
      rwa [List.length_flatten]
    have hl : (dropCrc fps).flatten.length = fps.flatten.length - 4 := by
      rw [dropCrc_flatten, List.length_take]
      have h4 : CRC_SIZE_BYTES = 4 := rfl
      omega
    refine ⟨by simpa using dropCrc_flatten fps, ?_⟩
    show (dropCrc fps).flatten.length + 4 = fps.flatten.length
    omega
  · rw [validateAndFinalizeTransfer, if_pos h1, if_neg hc] at h2
    exact absurd h2 (by simp)

/-- Counterexample to C5 as stated: the trimmer removes 4 bytes, not 2
(this is the source's own unit-test vector
`_drop_crc([b'0123456789']) == [b'012345']`). -/
theorem crc_trailer_counterexample :
    CRC_SIZE_BYTES ≠ 2 ∧
    dropCrc [[48,49,50,51,52,53,54,55,56,57]] = [[48,49,50,51,52,53]] := by
  decide

/-- Witness for C5: a concrete valid two-fragment transfer loses exactly
4 trailing bytes on emission. -/
theorem crc_trailer_four_bytes_witness :
    (1 < ([[10,20],[30,167,39,51,218]] : List (List Nat)).length ∧
      validateAndFinalizeTransfer ⟨0,0⟩ Priority.NOMINAL 7 [[10,20],[30,167,39,51,218]] 42 =
        some ⟨⟨0,0⟩, Priority.NOMINAL, 7, [[10,20],[30]], some 42⟩) ∧
    (TransferFrom.fragmented_payload
        ⟨⟨0,0⟩, Priority.NOMINAL, 7, [[10,20],[30]], some 42⟩).flatten =
      ([[10,20],[30,167,39,51,218]] : List (List Nat)).flatten.take
        (([[10,20],[30,167,39,51,218]] : List (List Nat)).flatten.length - 4) ∧
    (TransferFrom.fragmented_payload
        ⟨⟨0,0⟩, Priority.NOMINAL, 7, [[10,20],[30]], some 42⟩).flatten.length + 4 =
      ([[10,20],[30,167,39,51,218]] : List (List Nat)).flatten.length :=
  ⟨⟨by decide, by decide⟩,
    crc_trailer_four_bytes.2 ⟨0,0⟩ Priority.NOMINAL 7 [[10,20],[30,167,39,51,218]] 42
      ⟨⟨0,0⟩, Priority.NOMINAL, 7, [[10,20],[30]], some 42⟩ (by decide) (by decide)⟩

/-! ## The finalizer -/

/-- C6: `_validate_and_finalize_transfer` on a non-empty fragment list
returns the single fragment verbatim when the list has one element; with
two or more elements it returns the transfer with the CRC tail trimmed
exactly when the total length exceeds `CRC_SIZE` and the residue check
over all fragments passes, and `none` otherwise. -/
theorem validate_and_finalize_spec (ts : Timestamp) (prio : Priority) (tid nid : Nat)
    (fps : List (List Nat)) (hne : fps ≠ []) :
    (fps.length = 1 →
      validateAndFinalizeTransfer ts prio tid fps nid =
        some ⟨ts, prio, tid, fps, some nid⟩) ∧
    (1 < fps.length →
      ((CRC_SIZE_BYTES < (fps.map List.length).sum ∧
          checkResidue (crcNewFragments fps) = true) →
        validateAndFinalizeTransfer ts prio tid fps nid =
          some ⟨ts, prio, tid, dropCrc fps, some nid⟩) ∧
      (¬(CRC_SIZE_BYTES < (fps.map List.length).sum ∧
          checkResidue (crcNewFragments fps) = true) →
        validateAndFinalizeTransfer ts prio tid fps nid = none)) := by
  refine ⟨fun h1 => ?_, fun h1 => ⟨fun hc => ?_, fun hc => ?_⟩⟩
  · rw [validateAndFinalizeTransfer, if_neg (by omega)]
  · rw [validateAndFinalizeTransfer, if_pos h1, if_pos hc]
  · rw [validateAndFinalizeTransfer, if_pos h1, if_neg hc]

/-- Witness for C6: the single-fragment case and both multi-fragment
cases at concrete inputs (valid CRC, and the same list with no CRC). -/
theorem validate_and_finalize_spec_witness :
    (([[5]] : List (List Nat)) ≠ [] ∧
      validateAndFinalizeTransfer ⟨1,2⟩ Priority.LOW 3 [[5]] 9 =
        some ⟨⟨1,2⟩, Priority.LOW, 3, [[5]], some 9⟩) ∧
    validateAndFinalizeTransfer ⟨1,2⟩ Priority.LOW 3 [[10,20],[30,167,39,51,218]] 9 =
      some ⟨⟨1,2⟩, Priority.LOW, 3, dropCrc [[10,20],[30,167,39,51,218]], some 9⟩ ∧
    validateAndFinalizeTransfer ⟨1,2⟩ Priority.LOW 3 [[10,20],[30]] 9 = none :=
  ⟨⟨by decide,
    (validate_and_finalize_spec ⟨1,2⟩ Priority.LOW 3 9 [[5]] (by decide)).1 (by decide)⟩,
   ((validate_and_finalize_spec ⟨1,2⟩ Priority.LOW 3 9 [[10,20],[30,167,39,51,218]]
      (by decide)).2 (by decide)).1 (by decide),
   ((validate_and_finalize_spec ⟨1,2⟩ Priority.LOW 3 9 [[10,20],[30]]
      (by decide)).2 (by decide)).2 (by decide)⟩

/-! ## Basic behaviour of `process_frame` -/

/-- C8: a frame with empty payload that is not a single-frame transfer is
reported as `MULTIFRAME_EMPTY_FRAME` and dropped, with every state field
left unchanged. -/
theorem empty_frame_dropped (cfg : Config) (f : Frame) (t : Int)
    (s : ReassemblerState) (hp : f.payload = [])
    (hns : ¬(f.index = 0 ∧ f.end_of_transfer = true)) :
    processFrame cfg f t s =
      ⟨none, [(.MULTIFRAME_EMPTY_FRAME, s)], s⟩ := by
  have h1 : phase1 f t s = .error ⟨none, [(.MULTIFRAME_EMPTY_FRAME, s)], s⟩ := by
    rw [phase1, if_pos ⟨hns, hp⟩]
  rw [processFrame, h1, phase2]

/-- Witness for C8 at a concrete empty non-terminal frame. -/
theorem empty_frame_dropped_witness :
    (Frame.payload ⟨⟨0,0⟩, .NOMINAL, 2, 1, false, []⟩ = [] ∧
      ¬(Frame.index ⟨⟨0,0⟩, .NOMINAL, 2, 1, false, []⟩ = 0 ∧
        Frame.end_of_transfer ⟨⟨0,0⟩, .NOMINAL, 2, 1, false, []⟩ = true)) ∧
    processFrame ⟨42, 100⟩ ⟨⟨0,0⟩, .NOMINAL, 2, 1, false, []⟩ 1000
        ⟨[[9]], some 3, ⟨5,5⟩, 2⟩ =
      ⟨none, [(.MULTIFRAME_EMPTY_FRAME, ⟨[[9]], some 3, ⟨5,5⟩, 2⟩)],
        ⟨[[9]], some 3, ⟨5,5⟩, 2⟩⟩ :=
  ⟨⟨by decide, by decide⟩,
    empty_frame_dropped ⟨42, 100⟩ ⟨⟨0,0⟩, .NOMINAL, 2, 1, false, []⟩ 1000
      ⟨[[9]], some 3, ⟨5,5⟩, 2⟩ (by decide) (by decide)⟩

/-- General form of the stale-frame drop (step (c)): shared between the
stale-drop claim and the post-emission replay claim. -/
theorem stale_drop_aux (cfg : Config) (f : Frame) (t : Int)
    (s : ReassemblerState) (h1 : f.transfer_id < s.transfer_id)
    (h2 : f.payload ≠ [] ∨ (f.index = 0 ∧ f.end_of_transfer = true))
    (h3 : (f.timestamp.monotonic_ns : Int) - (s.timestamp.monotonic_ns : Int) ≤ t) :
    processFrame cfg f t s = ⟨none, [], s⟩ := by
  have ha : ¬(¬(f.index = 0 ∧ f.end_of_transfer = true) ∧ f.payload = []) := by
    tauto
  have hb : ¬(s.transfer_id < f.transfer_id ∨
      t < (f.timestamp.monotonic_ns : Int) - (s.timestamp.monotonic_ns : Int)) := by
    push_neg
    exact ⟨by omega, h3⟩
  have hp : phase1 f t s = .error ⟨none, [], s⟩ := by
    simp only [phase1, if_neg ha, if_neg hb, phase1Tail, if_pos h1]
  rw [processFrame, hp, phase2]

/-- C1 (amended): a frame whose transfer-ID is below the current one is
silently dropped, provided its payload is non-empty (or it is a
single-frame transfer) and its monotonic timestamp is within the
transfer-ID timeout of the held first-frame timestamp: `process_frame`
returns `None`, invokes no callback, and leaves the state unchanged. -/
theorem stale_frame_dropped (cfg : Config) (f : Frame) (t : Int)
    (s : ReassemblerState) (h1 : f.transfer_id < s.transfer_id)
    (h2 : f.payload ≠ [] ∨ (f.index = 0 ∧ f.end_of_transfer = true))
    (h3 : (f.timestamp.monotonic_ns : Int) - (s.timestamp.monotonic_ns : Int) ≤ t) :
    processFrame cfg f t s = ⟨none, [], s⟩ :=
  stale_drop_aux cfg f t s h1 h2 h3

/-- Witness for C1 (amended) at a concrete stale frame. -/
theorem stale_frame_dropped_witness :
    (Frame.transfer_id ⟨⟨7,7⟩, .SLOW, 3, 1, false, [8]⟩ <
        ReassemblerState.transfer_id ⟨[], none, ⟨0,0⟩, 5⟩ ∧
      Frame.payload ⟨⟨7,7⟩, .SLOW, 3, 1, false, [8]⟩ ≠ [] ∧
      ((Frame.timestamp ⟨⟨7,7⟩, .SLOW, 3, 1, false, [8]⟩).monotonic_ns : Int) -
        ((ReassemblerState.timestamp ⟨[], none, ⟨0,0⟩, 5⟩).monotonic_ns : Int) ≤ 1000) ∧
    processFrame ⟨42, 100⟩ ⟨⟨7,7⟩, .SLOW, 3, 1, false, [8]⟩ 1000 ⟨[], none, ⟨0,0⟩, 5⟩ =
      ⟨none, [], ⟨[], none, ⟨0,0⟩, 5⟩⟩ :=
  ⟨⟨by decide, by decide, by decide⟩,
    stale_frame_dropped ⟨42, 100⟩ ⟨⟨7,7⟩, .SLOW, 3, 1, false, [8]⟩ 1000
      ⟨[], none, ⟨0,0⟩, 5⟩ (by decide) (Or.inl (by decide)) (by decide)⟩

/-- Counterexample to C1 as stated: with a transfer-ID below the current
one, (i) an empty-payload non-terminal frame does invoke `on_error`
(`MULTIFRAME_EMPTY_FRAME` is checked before staleness), and (ii) a frame
past the transfer-ID timeout is accepted by the timeout restart and can
even complete and emit a transfer. -/
theorem stale_frame_counterexample :
    (Frame.transfer_id ⟨⟨0,0⟩, .NOMINAL, 3, 1, false, []⟩ <
        ReassemblerState.transfer_id ⟨[], none, ⟨0,0⟩, 5⟩ ∧
      (processFrame ⟨42, 100⟩ ⟨⟨0,0⟩, .NOMINAL, 3, 1, false, []⟩ 1000000000
          ⟨[], none, ⟨0,0⟩, 5⟩).errors ≠ []) ∧
    (Frame.transfer_id ⟨⟨2000000000,2000000000⟩, .NOMINAL, 3, 0, true, [7]⟩ <
        ReassemblerState.transfer_id ⟨[], none, ⟨0,0⟩, 5⟩ ∧
      (processFrame ⟨42, 100⟩ ⟨⟨2000000000,2000000000⟩, .NOMINAL, 3, 0, true, [7]⟩
          1000000000 ⟨[], none, ⟨0,0⟩, 5⟩).transfer ≠ none) := by
  decide

/-! ## Case analysis of `process_frame` -/

theorem phase2_ok_spec (cfg : Config) (f : Frame) (obs1 : List Obs)
    (s3 : ReassemblerState) :
    (∃ e, (e = ReassemblerError.PAYLOAD_SIZE_EXCEEDS_LIMIT ∨
        e = ReassemblerError.MULTIFRAME_INTEGRITY_ERROR) ∧
      phase2 cfg f (.ok (obs1, s3)) =
        ⟨none, obs1 ++ [(e, s3)], ⟨[], none, f.timestamp, f.transfer_id + 1⟩⟩) ∨
    phase2 cfg f (.ok (obs1, s3)) = ⟨none, obs1, s3⟩ ∨
    (∃ tr, phase2 cfg f (.ok (obs1, s3)) =
      ⟨some tr, obs1, ⟨[], none, f.timestamp, f.transfer_id + 1⟩⟩) := by
  by_cases hS : (cfg.max_payload_size_bytes : Int) < pureSize s3.payloads
  · exact Or.inl ⟨.PAYLOAD_SIZE_EXCEEDS_LIMIT, Or.inl rfl, by
      simp only [phase2, if_pos hS, ReassemblerState.restart]⟩
  · rcases hM : s3.max_index with _ | m
    · exact Or.inr (Or.inl (by simp only [phase2, if_neg hS, hM]))
    · by_cases hC : 0 < m ∧ ¬ s3.payloads.all (fun p => !p.isEmpty) = true
      · exact Or.inr (Or.inl (by simp only [phase2, if_neg hS, hM, if_pos hC]))
      · rcases hV : validateAndFinalizeTransfer s3.timestamp f.priority f.transfer_id
            s3.payloads cfg.source_node_id with _ | tr
        · exact Or.inl ⟨.MULTIFRAME_INTEGRITY_ERROR, Or.inr rfl, by
            simp only [phase2, if_neg hS, hM, if_neg hC, hV, ReassemblerState.restart]⟩
        · exact Or.inr (Or.inr ⟨tr, by
            simp only [phase2, if_neg hS, hM, if_neg hC, hV, ReassemblerState.restart,
              List.append_nil]⟩)

theorem store_spec (cfg : Config) (f : Frame) (obs1 : List Obs)
    (s2 : ReassemblerState) :
    (∃ e s2', (e = ReassemblerError.MULTIFRAME_EOT_MISPLACED ∨
        e = ReassemblerError.PAYLOAD_SIZE_EXCEEDS_LIMIT ∨
        e = ReassemblerError.MULTIFRAME_INTEGRITY_ERROR) ∧
      s2'.transfer_id = s2.transfer_id ∧ s2'.timestamp = s2.timestamp ∧
      phase2 cfg f (stepStore f obs1 s2) =
        ⟨none, obs1 ++ [(e, s2')], ⟨[], none, f.timestamp, f.transfer_id + 1⟩⟩) ∨
    (∃ s3, s3.transfer_id = s2.transfer_id ∧ s3.timestamp = s2.timestamp ∧
      phase2 cfg f (stepStore f obs1 s2) = ⟨none, obs1, s3⟩) ∨
    (∃ tr, phase2 cfg f (stepStore f obs1 s2) =
      ⟨some tr, obs1, ⟨[], none, f.timestamp, f.transfer_id + 1⟩⟩) := by
  have hok : stepStore f obs1 s2 =
        .ok (obs1, { s2 with payloads := storeAt s2.payloads f.index f.payload }) →
      (∃ e s2', (e = ReassemblerError.MULTIFRAME_EOT_MISPLACED ∨
          e = ReassemblerError.PAYLOAD_SIZE_EXCEEDS_LIMIT ∨
          e = ReassemblerError.MULTIFRAME_INTEGRITY_ERROR) ∧
        s2'.transfer_id = s2.transfer_id ∧ s2'.timestamp = s2.timestamp ∧
        phase2 cfg f (stepStore f obs1 s2) =
          ⟨none, obs1 ++ [(e, s2')], ⟨[], none, f.timestamp, f.transfer_id + 1⟩⟩) ∨
      (∃ s3, s3.transfer_id = s2.transfer_id ∧ s3.timestamp = s2.timestamp ∧
        phase2 cfg f (stepStore f obs1 s2) = ⟨none, obs1, s3⟩) ∨
      (∃ tr, phase2 cfg f (stepStore f obs1 s2) =
        ⟨some tr, obs1, ⟨[], none, f.timestamp, f.transfer_id + 1⟩⟩) := by
    intro heq
    rw [heq]
    rcases phase2_ok_spec cfg f obs1
        { s2 with payloads := storeAt s2.payloads f.index f.payload } with
      ⟨e, he, hp⟩ | hp | ⟨tr, hp⟩
    · exact Or.inl ⟨e, { s2 with payloads := storeAt s2.payloads f.index f.payload },
        Or.inr he, rfl, rfl, hp⟩
    · exact Or.inr (Or.inl ⟨{ s2 with payloads := storeAt s2.payloads f.index f.payload },
        rfl, rfl, hp⟩)
    · exact Or.inr (Or.inr ⟨tr, hp⟩)
  rcases hM : s2.max_index with _ | m
  · exact hok (by rw [stepStore, hM])
  · by_cases hP : (m : Int) < max (f.index : Int) ((s2.payloads.length : Int) - 1)
    · refine Or.inl ⟨.MULTIFRAME_EOT_MISPLACED, s2, Or.inl rfl, rfl, rfl, ?_⟩
      rw [stepStore, hM]
      dsimp only
      rw [if_pos hP]
      simp only [ReassemblerState.restart, phase2]
    · refine hok ?_
      rw [stepStore, hM]
      dsimp only
      rw [if_neg hP]

theorem tail_spec (cfg : Config) (f : Frame) (obs1 : List Obs)
    (s1 : ReassemblerState) :
    (f.transfer_id < s1.transfer_id ∧
      phase2 cfg f (phase1Tail f obs1 s1) = ⟨none, obs1, s1⟩) ∨
    (¬ f.transfer_id < s1.transfer_id ∧
      ((∃ e s2, (e = ReassemblerError.MULTIFRAME_EOT_INCONSISTENT ∨
            e = ReassemblerError.MULTIFRAME_EOT_MISPLACED ∨
            e = ReassemblerError.PAYLOAD_SIZE_EXCEEDS_LIMIT ∨
            e = ReassemblerError.MULTIFRAME_INTEGRITY_ERROR) ∧
          s2.transfer_id = s1.transfer_id ∧ s2.timestamp = s1.timestamp ∧
          phase2 cfg f (phase1Tail f obs1 s1) =
            ⟨none, obs1 ++ [(e, s2)], ⟨[], none, f.timestamp, f.transfer_id + 1⟩⟩) ∨
        (∃ s3, s3.transfer_id = s1.transfer_id ∧ s3.timestamp = s1.timestamp ∧
          phase2 cfg f (phase1Tail f obs1 s1) = ⟨none, obs1, s3⟩) ∨
        (∃ tr, phase2 cfg f (phase1Tail f obs1 s1) =
          ⟨some tr, obs1, ⟨[], none, f.timestamp, f.transfer_id + 1⟩⟩))) := by
  by_cases h1 : f.transfer_id < s1.transfer_id
  · exact Or.inl ⟨h1, by rw [phase1Tail, if_pos h1, phase2]⟩
  · refine Or.inr ⟨h1, ?_⟩
    have hmap : ∀ s2 : ReassemblerState,
        s2.transfer_id = s1.transfer_id → s2.timestamp = s1.timestamp →
        phase1Tail f obs1 s1 = stepStore f obs1 s2 →
        (∃ e s2', (e = ReassemblerError.MULTIFRAME_EOT_INCONSISTENT ∨
              e = ReassemblerError.MULTIFRAME_EOT_MISPLACED ∨
              e = ReassemblerError.PAYLOAD_SIZE_EXCEEDS_LIMIT ∨
              e = ReassemblerError.MULTIFRAME_INTEGRITY_ERROR) ∧
            s2'.transfer_id = s1.transfer_id ∧ s2'.timestamp = s1.timestamp ∧
            phase2 cfg f (phase1Tail f obs1 s1) =
              ⟨none, obs1 ++ [(e, s2')], ⟨[], none, f.timestamp, f.transfer_id + 1⟩⟩) ∨
          (∃ s3, s3.transfer_id = s1.transfer_id ∧ s3.timestamp = s1.timestamp ∧
            phase2 cfg f (phase1Tail f obs1 s1) = ⟨none, obs1, s3⟩) ∨
          (∃ tr, phase2 cfg f (phase1Tail f obs1 s1) =
            ⟨some tr, obs1, ⟨[], none, f.timestamp, f.transfer_id + 1⟩⟩) := by
      intro s2 htid hts heq
      rw [heq]
      rcases store_spec cfg f obs1 s2 with ⟨e, s2', he, h2', h3', hp⟩ | ⟨s3, h2', h3', hp⟩ |
        ⟨tr, hp⟩
      · exact Or.inl ⟨e, s2', Or.inr he, h2'.trans htid, h3'.trans hts, hp⟩
      · exact Or.inr (Or.inl ⟨s3, h2'.trans htid, h3'.trans hts, hp⟩)
      · exact Or.inr (Or.inr ⟨tr, hp⟩)
    by_cases hE : f.end_of_transfer = true
    · rcases hM : s1.max_index with _ | m
      · refine hmap { s1 with max_index := some f.index } rfl rfl ?_
        rw [phase1Tail, if_neg h1, if_pos hE, hM]
      · by_cases hNe : m ≠ f.index
        · refine Or.inl ⟨.MULTIFRAME_EOT_INCONSISTENT, s1, Or.inl rfl, rfl, rfl, ?_⟩
          rw [phase1Tail, if_neg h1, if_pos hE, hM]
          dsimp only
          rw [if_pos hNe]
          simp only [ReassemblerState.restart, phase2]
        · refine hmap { s1 with max_index := some f.index } rfl rfl ?_
          rw [phase1Tail, if_neg h1, if_pos hE, hM]
          dsimp only
          rw [if_neg hNe]
    · exact hmap _ rfl rfl (by rw [phase1Tail, if_neg h1, if_neg hE])

theorem processFrame_spec (cfg : Config) (f : Frame) (t : Int)
    (s : ReassemblerState) :
    ((¬(f.index = 0 ∧ f.end_of_transfer = true) ∧ f.payload = []) ∧
      processFrame cfg f t s = ⟨none, [(.MULTIFRAME_EMPTY_FRAME, s)], s⟩) ∨
    (¬(¬(f.index = 0 ∧ f.end_of_transfer = true) ∧ f.payload = []) ∧
      ∃ obs1 s1,
        ((¬(s.transfer_id < f.transfer_id ∨
              t < (f.timestamp.monotonic_ns : Int) - (s.timestamp.monotonic_ns : Int)) ∧
            obs1 = [] ∧ s1 = s) ∨
          ((s.transfer_id < f.transfer_id ∨
              t < (f.timestamp.monotonic_ns : Int) - (s.timestamp.monotonic_ns : Int)) ∧
            s1 = ⟨[], none, f.timestamp, f.transfer_id⟩ ∧
            ((s.payloads = [] ∧ obs1 = []) ∨
              (s.payloads ≠ [] ∧ obs1 = [(.MULTIFRAME_MISSING_FRAMES, s)])))) ∧
        processFrame cfg f t s = phase2 cfg f (phase1Tail f obs1 s1)) := by
  by_cases hA : ¬(f.index = 0 ∧ f.end_of_transfer = true) ∧ f.payload = []
  · exact Or.inl ⟨hA, by rw [processFrame, phase1, if_pos hA, phase2]⟩
  · refine Or.inr ⟨hA, ?_⟩
    by_cases hB : s.transfer_id < f.transfer_id ∨
        t < (f.timestamp.monotonic_ns : Int) - (s.timestamp.monotonic_ns : Int)
    · by_cases hBp : s.payloads = []
      · exact ⟨[], ⟨[], none, f.timestamp, f.transfer_id⟩,
          Or.inr ⟨hB, rfl, Or.inl ⟨hBp, rfl⟩⟩, by
            simp only [processFrame, phase1, if_neg hA, if_pos hB, if_pos hBp,
              ReassemblerState.restart]⟩
      · exact ⟨[(.MULTIFRAME_MISSING_FRAMES, s)], ⟨[], none, f.timestamp, f.transfer_id⟩,
          Or.inr ⟨hB, rfl, Or.inr ⟨hBp, rfl⟩⟩, by
            simp only [processFrame, phase1, if_neg hA, if_pos hB, if_neg hBp,
              ReassemblerState.restart]⟩
    · exact ⟨[], s, Or.inl ⟨hB, rfl, rfl⟩, by
        simp only [processFrame, phase1, if_neg hA, if_neg hB]⟩

/-! ## Evolution of the transfer-ID -/

/-- C3 (amended): in one `process_frame` call, `current_transfer_id`
either stays, is set to the frame's transfer-ID (new-transfer
detection), or advances to the frame's transfer-ID plus one
(finalize/abort); and whenever the frame is within the transfer-ID
timeout it never decreases.  (A timeout-triggered restart may set it to
a lower incoming transfer-ID.) -/
theorem tid_changes (cfg : Config) (f : Frame) (t : Int) (s : ReassemblerState) :
    ((processFrame cfg f t s).state.transfer_id = s.transfer_id ∨
      (processFrame cfg f t s).state.transfer_id = f.transfer_id ∨
      (processFrame cfg f t s).state.transfer_id = f.transfer_id + 1) ∧
    ((f.timestamp.monotonic_ns : Int) - (s.timestamp.monotonic_ns : Int) ≤ t →
      s.transfer_id ≤ (processFrame cfg f t s).state.transfer_id) := by
  rcases processFrame_spec cfg f t s with ⟨_, heq⟩ | ⟨_, obs1, s1, hs1, heq⟩
  · rw [heq]
    exact ⟨Or.inl rfl, fun _ => le_refl _⟩
  · have hstid : (¬(s.transfer_id < f.transfer_id ∨
        t < (f.timestamp.monotonic_ns : Int) - (s.timestamp.monotonic_ns : Int)) ∧
          s1.transfer_id = s.transfer_id) ∨
      ((s.transfer_id < f.transfer_id ∨
        t < (f.timestamp.monotonic_ns : Int) - (s.timestamp.monotonic_ns : Int)) ∧
          s1.transfer_id = f.transfer_id) := by
      rcases hs1 with ⟨hc, _, h⟩ | ⟨hc, h, _⟩
      · subst h; exact Or.inl ⟨hc, rfl⟩
      · subst h; exact Or.inr ⟨hc, rfl⟩
    rcases tail_spec cfg f obs1 s1 with ⟨h1, htl⟩ | ⟨h1, ⟨e, s2, he, h2t, _, htl⟩ |
      ⟨s3, h3t, _, htl⟩ | ⟨tr, htl⟩⟩ <;> rw [heq, htl] <;> dsimp only
    · rcases hstid with ⟨hc, hv⟩ | ⟨hc, hv⟩
      · exact ⟨Or.inl hv, fun _ => le_of_eq hv.symm⟩
      · refine ⟨Or.inr (Or.inl hv), fun hts => ?_⟩
        rcases hc with h | h
        · omega
        · omega
    · rcases hstid with ⟨hc, hv⟩ | ⟨hc, hv⟩
      · push_neg at hc
        refine ⟨Or.inr (Or.inr rfl), fun hts => ?_⟩
        omega
      · refine ⟨Or.inr (Or.inr rfl), fun hts => ?_⟩
        rcases hc with h | h <;> omega
    · rcases hstid with ⟨hc, hv⟩ | ⟨hc, hv⟩
      · exact ⟨Or.inl (h3t.trans hv), fun _ => le_of_eq (h3t.trans hv).symm⟩
      · refine ⟨Or.inr (Or.inl (h3t.trans hv)), fun hts => ?_⟩
        rw [h3t.trans hv]
        rcases hc with h | h <;> omega
    · rcases hstid with ⟨hc, hv⟩ | ⟨hc, hv⟩
      · push_neg at hc
        refine ⟨Or.inr (Or.inr rfl), fun hts => ?_⟩
        omega
      · refine ⟨Or.inr (Or.inr rfl), fun hts => ?_⟩
        rcases hc with h | h <;> omega

/-- Counterexample to C3 as stated: a restart triggered by the
transfer-ID timeout lowers `current_transfer_id` from 10 to 3. -/
theorem tid_monotonic_counterexample :
    (processFrame ⟨42, 100⟩ ⟨⟨2000000000, 2000000000⟩, .NOMINAL, 3, 0, false, [5]⟩
        1000000000 ⟨[[9]], none, ⟨0, 0⟩, 10⟩).state.transfer_id <
      ReassemblerState.transfer_id ⟨[[9]], none, ⟨0, 0⟩, 10⟩ := by
  decide

/-- Witness for C3 at a concrete in-timeout frame. -/
theorem tid_changes_witness :
    (((Frame.timestamp ⟨⟨5,5⟩, .NOMINAL, 7, 0, false, [1]⟩).monotonic_ns : Int) -
        ((ReassemblerState.timestamp ⟨[], none, ⟨0,0⟩, 2⟩).monotonic_ns : Int) ≤ 100) ∧
    ReassemblerState.transfer_id ⟨[], none, ⟨0,0⟩, 2⟩ ≤
      (processFrame ⟨42, 100⟩ ⟨⟨5,5⟩, .NOMINAL, 7, 0, false, [1]⟩ 100
        ⟨[], none, ⟨0,0⟩, 2⟩).state.transfer_id :=
  ⟨by decide,
    (tid_changes ⟨42, 100⟩ ⟨⟨5,5⟩, .NOMINAL, 7, 0, false, [1]⟩ 100
      ⟨[], none, ⟨0,0⟩, 2⟩).2 (by decide)⟩

/-! ## State after an emission -/

/-- Whenever `process_frame` returns a transfer, the closing `_restart`
has reset the state: no payloads, no max index, the completing frame's
timestamp, and the completing frame's transfer-ID plus one. -/
theorem emission_resets (cfg : Config) (f : Frame) (t : Int)
    (s : ReassemblerState) (tr : TransferFrom)
    (h : (processFrame cfg f t s).transfer = some tr) :
    (processFrame cfg f t s).state =
      ⟨[], none, f.timestamp, f.transfer_id + 1⟩ := by
  rcases processFrame_spec cfg f t s with ⟨_, heq⟩ | ⟨_, obs1, s1, _, heq⟩
  · rw [heq] at h
    exact absurd h (by simp)
  · rcases tail_spec cfg f obs1 s1 with ⟨_, htl⟩ | ⟨_, ⟨e, s2, _, _, _, htl⟩ |
      ⟨s3, _, _, htl⟩ | ⟨tr', htl⟩⟩ <;> rw [heq, htl] at h ⊢
    · exact absurd h (by simp)
    · exact absurd h (by simp)

/-- C10: after a transfer for transfer-ID `t` is emitted (completed by a
frame with timestamp `ts`), re-delivering any frame of that transfer
(same transfer-ID, non-empty payload or single-frame, monotonic
timestamp within the transfer-ID timeout of `ts`) returns `None` and
invokes no callback: the reset advanced `current_transfer_id` to `t + 1`
and the frame is silently dropped as stale. -/
theorem replay_after_emission_dropped (cfg : Config) (f g : Frame) (t t' : Int)
    (s : ReassemblerState) (tr : TransferFrom)
    (hemit : (processFrame cfg f t s).transfer = some tr)
    (hgt : g.transfer_id = f.transfer_id)
    (hg : g.payload ≠ [] ∨ (g.index = 0 ∧ g.end_of_transfer = true))
    (hts : (g.timestamp.monotonic_ns : Int) - (f.timestamp.monotonic_ns : Int) ≤ t') :
    processFrame cfg g t' (processFrame cfg f t s).state =
      ⟨none, [], (processFrame cfg f t s).state⟩ := by
  rw [emission_resets cfg f t s tr hemit]
  exact stale_drop_aux cfg g t' ⟨[], none, f.timestamp, f.transfer_id + 1⟩
    (by simpa [hgt] using Nat.lt_succ_self f.transfer_id) hg (by simpa using hts)

/-- Witness for C10: a concrete single-frame emission followed by an
exact re-delivery of the same frame, which is silently dropped. -/
theorem replay_after_emission_dropped_witness :
    ((processFrame ⟨42, 100⟩ ⟨⟨5,5⟩, .NOMINAL, 0, 0, true, [7]⟩ 100 initState).transfer =
        some ⟨⟨0,0⟩, .NOMINAL, 0, [[7]], some 42⟩ ∧
      Frame.payload ⟨⟨5,5⟩, .NOMINAL, 0, 0, true, [7]⟩ ≠ [] ∧
      ((Frame.timestamp ⟨⟨5,5⟩, .NOMINAL, 0, 0, true, [7]⟩).monotonic_ns : Int) -
        ((Frame.timestamp ⟨⟨5,5⟩, .NOMINAL, 0, 0, true, [7]⟩).monotonic_ns : Int) ≤ 100) ∧
    processFrame ⟨42, 100⟩ ⟨⟨5,5⟩, .NOMINAL, 0, 0, true, [7]⟩ 100
        (processFrame ⟨42, 100⟩ ⟨⟨5,5⟩, .NOMINAL, 0, 0, true, [7]⟩ 100 initState).state =
      ⟨none, [],
        (processFrame ⟨42, 100⟩ ⟨⟨5,5⟩, .NOMINAL, 0, 0, true, [7]⟩ 100 initState).state⟩ :=
  ⟨⟨by decide, by decide, by decide⟩,
    replay_after_emission_dropped ⟨42, 100⟩ ⟨⟨5,5⟩, .NOMINAL, 0, 0, true, [7]⟩
      ⟨⟨5,5⟩, .NOMINAL, 0, 0, true, [7]⟩ 100 100 initState
      ⟨⟨0,0⟩, .NOMINAL, 0, [[7]], some 42⟩ (by decide) rfl (Or.inl (by decide))
      (by decide)⟩

/-! ## Errors observe the pre-reset state -/

/-- C9: every `on_error` invocation observes the pre-reset state.  A
`MULTIFRAME_EMPTY_FRAME` report observes the unchanged call-entry state;
a `MULTIFRAME_MISSING_FRAMES` report observes exactly the preempted
pre-restart state (with its fragments still present); and each aborting
report (`EOT_INCONSISTENT`, `EOT_MISPLACED`, `PAYLOAD_SIZE`,
`INTEGRITY`) observes a state still carrying the pre-reset
`current_transfer_id` (the frame's), while the state after the call is
the reset one with `current_transfer_id + 1` — in particular the
observed state differs from the post-reset state. -/
theorem error_callback_pre_reset (cfg : Config) (f : Frame) (t : Int)
    (s : ReassemblerState) (e : ReassemblerError) (o : ReassemblerState)
    (hmem : (e, o) ∈ (processFrame cfg f t s).errors) :
    (e = .MULTIFRAME_EMPTY_FRAME → o = s ∧ (processFrame cfg f t s).state = s) ∧
    (e = .MULTIFRAME_MISSING_FRAMES → o = s ∧ o.payloads ≠ []) ∧
    ((e = .MULTIFRAME_EOT_INCONSISTENT ∨ e = .MULTIFRAME_EOT_MISPLACED ∨
        e = .PAYLOAD_SIZE_EXCEEDS_LIMIT ∨ e = .MULTIFRAME_INTEGRITY_ERROR) →
      o.transfer_id = f.transfer_id ∧
      (processFrame cfg f t s).state = ⟨[], none, f.timestamp, f.transfer_id + 1⟩ ∧
      o ≠ (processFrame cfg f t s).state) := by
  rcases processFrame_spec cfg f t s with ⟨_, heq⟩ | ⟨hA, obs1, s1, hs1, heq⟩
  · rw [heq] at hmem ⊢
    have hpair : e = .MULTIFRAME_EMPTY_FRAME ∧ o = s := by
      simpa [Prod.ext_iff] using hmem
    obtain ⟨he, ho⟩ := hpair
    subst he; subst ho
    exact ⟨fun _ => ⟨rfl, rfl⟩, fun h => absurd h (by decide),
      fun h => by rcases h with h | h | h | h <;> exact absurd h (by decide)⟩
  · have hobs : ∀ p : Obs, p ∈ obs1 →
        p.1 = .MULTIFRAME_MISSING_FRAMES ∧ p.2 = s ∧ s.payloads ≠ [] := by
      rcases hs1 with ⟨_, h, _⟩ | ⟨_, _, ⟨_, h⟩ | ⟨hne, h⟩⟩ <;> subst h
      · intro p hp; cases hp
      · intro p hp; cases hp
      · intro p hp
        have hp' : p = (.MULTIFRAME_MISSING_FRAMES, s) := by simpa using hp
        subst hp'
        exact ⟨rfl, rfl, hne⟩
    have hcommon : (e, o) ∈ obs1 →
        (e = ReassemblerError.MULTIFRAME_EMPTY_FRAME → False) ∧
        (o = s ∧ o.payloads ≠ []) ∧
        ((e = ReassemblerError.MULTIFRAME_EOT_INCONSISTENT ∨
          e = ReassemblerError.MULTIFRAME_EOT_MISPLACED ∨
          e = ReassemblerError.PAYLOAD_SIZE_EXCEEDS_LIMIT ∨
          e = ReassemblerError.MULTIFRAME_INTEGRITY_ERROR) → False) := by
      intro hin
      obtain ⟨he, ho, hpne⟩ := hobs _ hin
      dsimp only at he ho
      subst he
      subst ho
      refine ⟨fun h => ?_, ⟨rfl, hpne⟩, fun h => ?_⟩
      · cases h
      · rcases h with h | h | h | h <;> cases h
    have hs1f : ¬ f.transfer_id < s1.transfer_id → s1.transfer_id = f.transfer_id := by
      intro h1
      rcases hs1 with ⟨hc, _, h⟩ | ⟨_, h, _⟩
      · subst h; push_neg at hc; omega
      · subst h; rfl
    rcases tail_spec cfg f obs1 s1 with ⟨h1, htl⟩ | ⟨h1, ⟨e', s2, he', h2t, _, htl⟩ |
      ⟨s3, _, _, htl⟩ | ⟨tr, htl⟩⟩
    · rw [heq, htl] at hmem ⊢
      obtain ⟨h1c, h2c, h3c⟩ := hcommon hmem
      exact ⟨fun h => (h1c h).elim, fun _ => h2c, fun h => (h3c h).elim⟩
    · rw [heq, htl] at hmem ⊢
      rcases List.mem_append.mp hmem with hin | hin
      · obtain ⟨h1c, h2c, h3c⟩ := hcommon hin
        exact ⟨fun h => (h1c h).elim, fun _ => h2c, fun h => (h3c h).elim⟩
      · have hp' : e = e' ∧ o = s2 := by simpa [Prod.ext_iff] using hin
        obtain ⟨he, ho⟩ := hp'
        subst he; subst ho
        have hotid : o.transfer_id = f.transfer_id := h2t.trans (hs1f h1)
        refine ⟨fun h => ?_, fun h => ?_, fun _ => ⟨hotid, rfl, fun hco => ?_⟩⟩
        · rcases he' with h' | h' | h' | h' <;> subst h' <;> cases h
        · rcases he' with h' | h' | h' | h' <;> subst h' <;> cases h
        · rw [hco] at hotid
          dsimp only at hotid
          omega
    · rw [heq, htl] at hmem ⊢
      obtain ⟨h1c, h2c, h3c⟩ := hcommon hmem
      exact ⟨fun h => (h1c h).elim, fun _ => h2c, fun h => (h3c h).elim⟩
    · rw [heq, htl] at hmem ⊢
      obtain ⟨h1c, h2c, h3c⟩ := hcommon hmem
      exact ⟨fun h => (h1c h).elim, fun _ => h2c, fun h => (h3c h).elim⟩

/-- Witness for C9: a concrete `MULTIFRAME_EMPTY_FRAME` report observes
exactly the unchanged call-entry state. -/
theorem error_callback_pre_reset_witness :
    ((ReassemblerError.MULTIFRAME_EMPTY_FRAME, (⟨[[3]], some 1, ⟨9,9⟩, 4⟩ : ReassemblerState)) ∈
        (processFrame ⟨42, 100⟩ ⟨⟨9,9⟩, .LOW, 4, 2, false, []⟩ 50
          ⟨[[3]], some 1, ⟨9,9⟩, 4⟩).errors) ∧
    ((⟨[[3]], some 1, ⟨9,9⟩, 4⟩ : ReassemblerState) = ⟨[[3]], some 1, ⟨9,9⟩, 4⟩ ∧
      (processFrame ⟨42, 100⟩ ⟨⟨9,9⟩, .LOW, 4, 2, false, []⟩ 50
          ⟨[[3]], some 1, ⟨9,9⟩, 4⟩).state = ⟨[[3]], some 1, ⟨9,9⟩, 4⟩) :=
  ⟨by decide,
    (error_callback_pre_reset ⟨42, 100⟩ ⟨⟨9,9⟩, .LOW, 4, 2, false, []⟩ 50
      ⟨[[3]], some 1, ⟨9,9⟩, 4⟩ .MULTIFRAME_EMPTY_FRAME ⟨[[3]], some 1, ⟨9,9⟩, 4⟩
      (by decide)).1 rfl⟩

/-! ## Emission characterization -/

/-- Invariant of every reachable reassembler state: when `max_index` is
set, the payload list holds exactly `max_index + 1` slots (the source
asserts this at completion, lines 154–156). -/
def GoodState (s : ReassemblerState) : Prop :=
  ∀ m, s.max_index = some m → s.payloads.length = m + 1

theorem storeAt_length (l : List (List Nat)) (i : Nat) (p : List Nat) :
    (storeAt l i p).length = max l.length (i + 1) := by
  simp only [storeAt, List.length_set, List.length_append, List.length_replicate]
  omega

theorem stepStore_ok (f : Frame) (obs1 : List Obs) (s2 : ReassemblerState)
    (obs : List Obs) (s3 : ReassemblerState)
    (h : stepStore f obs1 s2 = .ok (obs, s3)) :
    obs = obs1 ∧
    s3 = { s2 with payloads := storeAt s2.payloads f.index f.payload } ∧
    (∀ m, s2.max_index = some m →
      ¬((m : Int) < max (f.index : Int) ((s2.payloads.length : Int) - 1))) := by
  rcases hM : s2.max_index with _ | m
  · rw [stepStore, hM] at h
    simp only [Except.ok.injEq, Prod.mk.injEq] at h
    refine ⟨h.1.symm, h.2.symm, ?_⟩
    intro m hm
    simp at hm
  · rw [stepStore, hM] at h
    dsimp only at h
    by_cases hP : (m : Int) < max (f.index : Int) ((s2.payloads.length : Int) - 1)
    · rw [if_pos hP] at h
      exact absurd h (by simp [ReassemblerState.restart])
    · rw [if_neg hP] at h
      simp only [Except.ok.injEq, Prod.mk.injEq] at h
      refine ⟨h.1.symm, h.2.symm, ?_⟩
      intro m' hm'
      injection hm' with hm''
      subst hm''
      exact hP

theorem stepStore_error_none (f : Frame) (obs1 : List Obs) (s2 : ReassemblerState)
    (r : StepResult) (h : stepStore f obs1 s2 = .error r) : r.transfer = none := by
  rcases hM : s2.max_index with _ | m
  · rw [stepStore, hM] at h
    exact absurd h (by simp)
  · rw [stepStore, hM] at h
    dsimp only at h
    by_cases hP : (m : Int) < max (f.index : Int) ((s2.payloads.length : Int) - 1)
    · rw [if_pos hP] at h
      simp only [ReassemblerState.restart, Except.error.injEq] at h
      rw [← h]
    · rw [if_neg hP] at h
      exact absurd h (by simp)

theorem phase1Tail_ok (f : Frame) (obs1 : List Obs) (s1 : ReassemblerState)
    (obs : List Obs) (s3 : ReassemblerState)
    (h : phase1Tail f obs1 s1 = .ok (obs, s3)) :
    ∃ s2, (s2 = s1 ∨ s2 = { s1 with max_index := some f.index }) ∧
      ¬ f.transfer_id < s1.transfer_id ∧ stepStore f obs1 s2 = .ok (obs, s3) := by
  by_cases h1 : f.transfer_id < s1.transfer_id
  · rw [phase1Tail, if_pos h1] at h
    exact absurd h (by simp)
  · rw [phase1Tail, if_neg h1] at h
    by_cases hE : f.end_of_transfer = true
    · rw [if_pos hE] at h
      rcases hM : s1.max_index with _ | m
      · rw [hM] at h
        dsimp only at h
        exact ⟨_, Or.inr rfl, h1, h⟩
      · rw [hM] at h
        dsimp only at h
        by_cases hNe : m ≠ f.index
        · rw [if_pos hNe] at h
          exact absurd h (by simp [ReassemblerState.restart])
        · rw [if_neg hNe] at h
          exact ⟨_, Or.inr rfl, h1, h⟩
    · rw [if_neg hE] at h
      exact ⟨s1, Or.inl rfl, h1, h⟩

theorem phase1Tail_error_none (f : Frame) (obs1 : List Obs) (s1 : ReassemblerState)
    (r : StepResult) (h : phase1Tail f obs1 s1 = .error r) : r.transfer = none := by
  by_cases h1 : f.transfer_id < s1.transfer_id
  · rw [phase1Tail, if_pos h1] at h
    simp only [Except.error.injEq] at h
    rw [← h]
  · rw [phase1Tail, if_neg h1] at h
    by_cases hE : f.end_of_transfer = true
    · rw [if_pos hE] at h
      rcases hM : s1.max_index with _ | m
      · rw [hM] at h
        dsimp only at h
        exact stepStore_error_none _ _ _ _ h
      · rw [hM] at h
        dsimp only at h
        by_cases hNe : m ≠ f.index
        · rw [if_pos hNe] at h
          simp only [ReassemblerState.restart, Except.error.injEq] at h
          rw [← h]
        · rw [if_neg hNe] at h
          exact stepStore_error_none _ _ _ _ h
    · rw [if_neg hE] at h
      exact stepStore_error_none _ _ _ _ h

theorem phase1_ok (f : Frame) (t : Int) (s : ReassemblerState)
    (obs : List Obs) (s3 : ReassemblerState)
    (h : phase1 f t s = .ok (obs, s3)) :
    ∃ obs1 s1, (s1 = s ∨ s1 = ⟨[], none, f.timestamp, f.transfer_id⟩) ∧
      phase1Tail f obs1 s1 = .ok (obs, s3) := by
  by_cases hA : ¬(f.index = 0 ∧ f.end_of_transfer = true) ∧ f.payload = []
  · rw [phase1, if_pos hA] at h
    exact absurd h (by simp)
  · rw [phase1, if_neg hA] at h
    by_cases hB : s.transfer_id < f.transfer_id ∨
        t < (f.timestamp.monotonic_ns : Int) - (s.timestamp.monotonic_ns : Int)
    · rw [if_pos hB] at h
      by_cases hBp : s.payloads = []
      · rw [if_pos hBp] at h
        simp only [ReassemblerState.restart] at h
        exact ⟨_, _, Or.inr rfl, h⟩
      · rw [if_neg hBp] at h
        simp only [ReassemblerState.restart] at h
        exact ⟨_, _, Or.inr rfl, h⟩
    · rw [if_neg hB] at h
      exact ⟨[], s, Or.inl rfl, h⟩

theorem phase1_error_none (f : Frame) (t : Int) (s : ReassemblerState)
    (r : StepResult) (h : phase1 f t s = .error r) : r.transfer = none := by
  by_cases hA : ¬(f.index = 0 ∧ f.end_of_transfer = true) ∧ f.payload = []
  · rw [phase1, if_pos hA] at h
    simp only [Except.error.injEq] at h
    rw [← h]
  · rw [phase1, if_neg hA] at h
    by_cases hB : s.transfer_id < f.transfer_id ∨
        t < (f.timestamp.monotonic_ns : Int) - (s.timestamp.monotonic_ns : Int)
    · rw [if_pos hB] at h
      by_cases hBp : s.payloads = []
      · rw [if_pos hBp] at h
        simp only [ReassemblerState.restart] at h
        exact phase1Tail_error_none _ _ _ _ h
      · rw [if_neg hBp] at h
        simp only [ReassemblerState.restart] at h
        exact phase1Tail_error_none _ _ _ _ h
    · rw [if_neg hB] at h
      exact phase1Tail_error_none _ _ _ _ h

theorem phase1_ok_good (f : Frame) (t : Int) (s : ReassemblerState)
    (obs : List Obs) (s3 : ReassemblerState) (hg : GoodState s)
    (h : phase1 f t s = .ok (obs, s3)) : GoodState s3 := by
  obtain ⟨obs1, s1, hs1, htl⟩ := phase1_ok f t s obs s3 h
  have hg1 : GoodState s1 := by
    rcases hs1 with h' | h'
    · subst h'; exact hg
    · subst h'
      intro m hm
      cases hm
  obtain ⟨s2, hs2, h1, hst⟩ := phase1Tail_ok f obs1 s1 obs s3 htl
  obtain ⟨hobs, hs3, hP⟩ := stepStore_ok f obs1 s2 obs s3 hst
  subst hs3
  intro m hm
  dsimp only at hm ⊢
  have hP' := hP m hm
  push_neg at hP'
  have hfi : (f.index : Int) ≤ m := le_trans (le_max_left _ _) hP'
  have hlen : ((s2.payloads.length : Int) - 1) ≤ m := le_trans (le_max_right _ _) hP'
  rw [storeAt_length]
  rcases hs2 with h' | h'
  · subst h'
    have := hg1 m hm
    omega
  · subst h'
    dsimp only at hm
    injection hm with hm'
    dsimp only at hlen ⊢
    omega

theorem validate_fields (ts : Timestamp) (prio : Priority) (tid : Nat)
    (fps : List (List Nat)) (nid : Nat) (tr : TransferFrom)
    (h : validateAndFinalizeTransfer ts prio tid fps nid = some tr) :
    tr.timestamp = ts ∧ tr.priority = prio ∧ tr.transfer_id = tid := by
  rw [validateAndFinalizeTransfer] at h
  by_cases h1 : 1 < fps.length
  · rw [if_pos h1] at h
    by_cases h2 : CRC_SIZE_BYTES < (fps.map List.length).sum ∧
        checkResidue (crcNewFragments fps) = true
    · rw [if_pos h2] at h
      cases h
      exact ⟨rfl, rfl, rfl⟩
    · rw [if_neg h2] at h
      cases h
  · rw [if_neg h1] at h
    cases h
    exact ⟨rfl, rfl, rfl⟩

theorem completion_bridge (s3 : ReassemblerState) (hg : GoodState s3) (m : Nat)
    (hm : s3.max_index = some m) :
    ((m = 0 ∨ ∀ j, j ≤ m → s3.payloads.getD j [] ≠ []) ↔
      ¬(0 < m ∧ ¬ s3.payloads.all (fun p => !p.isEmpty) = true)) := by
  have hlen := hg m hm
  constructor
  · rintro (h0 | hall) hc
    · omega
    · apply hc.2
      rw [List.all_eq_true]
      intro p hp
      obtain ⟨i, hi, hpi⟩ := List.mem_iff_getElem.mp hp
      have hne := hall i (by omega)
      rw [List.getD_eq_getElem _ _ hi, hpi] at hne
      rcases p with _ | ⟨a, p'⟩
      · exact absurd rfl hne
      · rfl
  · intro hc
    by_cases h0 : m = 0
    · exact Or.inl h0
    · right
      have hall : s3.payloads.all (fun p => !p.isEmpty) = true := by
        by_contra hno
        exact hc ⟨Nat.pos_of_ne_zero h0, hno⟩
      rw [List.all_eq_true] at hall
      intro j hj
      have hjlen : j < s3.payloads.length := by omega
      have := hall (s3.payloads[j]) (List.getElem_mem hjlen)
      rw [List.getD_eq_getElem _ _ hjlen]
      intro hjeq
      rw [hjeq] at this
      simp at this

/-- C2 (amended): for reachable states (invariant `GoodState`),
`process_frame` returns a transfer exactly when the frame survives
steps (a)–(f) and is stored, the stored pure payload size is within
`max_payload_size_bytes`, `max_index` is set with either `max_index = 0`
or all positions `0..max_index` holding non-empty fragments, and the
finalizer succeeds; the returned transfer carries `first_timestamp`, the
completing frame's priority and the current transfer-ID, and afterwards
the state is reset with `current_transfer_id = frame.transfer_id + 1`
and `first_timestamp = frame.timestamp`. -/
theorem emission_iff (cfg : Config) (f : Frame) (t : Int)
    (s : ReassemblerState) (hgood : GoodState s) (tr : TransferFrom) :
    ((processFrame cfg f t s).transfer = some tr ↔
      ∃ obs s3, phase1 f t s = .ok (obs, s3) ∧
        pureSize s3.payloads ≤ (cfg.max_payload_size_bytes : Int) ∧
        (∃ m, s3.max_index = some m ∧
          (m = 0 ∨ ∀ j, j ≤ m → s3.payloads.getD j [] ≠ [])) ∧
        tr.timestamp = s3.timestamp ∧ tr.priority = f.priority ∧
        tr.transfer_id = f.transfer_id ∧
        validateAndFinalizeTransfer s3.timestamp f.priority f.transfer_id
          s3.payloads cfg.source_node_id = some tr) ∧
    ((processFrame cfg f t s).transfer = some tr →
      (processFrame cfg f t s).state =
        ⟨[], none, f.timestamp, f.transfer_id + 1⟩) := by
  refine ⟨⟨fun h => ?_, fun h => ?_⟩, fun h => emission_resets cfg f t s tr h⟩
  · rcases hph : phase1 f t s with r | ⟨obs, s3⟩
    · rw [processFrame, hph, phase2] at h
      rw [phase1_error_none f t s r hph] at h
      cases h
    · rw [processFrame, hph] at h
      simp only [phase2] at h
      by_cases hS : (cfg.max_payload_size_bytes : Int) < pureSize s3.payloads
      · rw [if_pos hS] at h
        simp [ReassemblerState.restart] at h
      · rw [if_neg hS] at h
        rcases hM : s3.max_index with _ | m
        · rw [hM] at h
          cases h
        · rw [hM] at h
          dsimp only at h
          by_cases hC : 0 < m ∧ ¬ s3.payloads.all (fun p => !p.isEmpty) = true
          · rw [if_pos hC] at h
            cases h
          · rw [if_neg hC] at h
            rcases hV : validateAndFinalizeTransfer s3.timestamp f.priority
                f.transfer_id s3.payloads cfg.source_node_id with _ | tr'
            · rw [hV] at h
              simp [ReassemblerState.restart] at h
            · rw [hV] at h
              simp only [ReassemblerState.restart, Option.some.injEq] at h
              subst h
              obtain ⟨hts, hprio, htid⟩ := validate_fields _ _ _ _ _ _ hV
              exact ⟨obs, s3, rfl, le_of_not_lt hS,
                ⟨m, hM, (completion_bridge s3
                  (phase1_ok_good f t s obs s3 hgood hph) m hM).mpr hC⟩,
                hts, hprio, htid, hV⟩
  · obtain ⟨obs, s3, hph, hS, ⟨m, hM, hcompl⟩, hts, hprio, htid, hV⟩ := h
    rw [processFrame, hph]
    simp only [phase2]
    rw [if_neg (not_lt.mpr hS), hM]
    dsimp only
    rw [if_neg ((completion_bridge s3
      (phase1_ok_good f t s obs s3 hgood hph) m hM).mp hcompl), hV]

/-- Counterexample to C2 as stated: a two-frame transfer whose pure size
(8 bytes) exceeds the configured limit (5 bytes).  The completing frame
is stored, the completion test holds and the finalizer would succeed,
yet `process_frame` returns `None` (the size ceiling, step (g), aborts
first) — the claimed "exactly when" omits the size check. -/
theorem emission_iff_counterexample :
    (processFrame ⟨42, 5⟩ ⟨⟨0,0⟩, .NOMINAL, 0, 1, true, [5,6,7,8,129,31,137,70]⟩ 100
        ⟨[[1,2,3,4]], none, ⟨0,0⟩, 0⟩).transfer = none ∧
    phase1 ⟨⟨0,0⟩, .NOMINAL, 0, 1, true, [5,6,7,8,129,31,137,70]⟩ 100
        ⟨[[1,2,3,4]], none, ⟨0,0⟩, 0⟩ =
      .ok ([], ⟨[[1,2,3,4],[5,6,7,8,129,31,137,70]], some 1, ⟨0,0⟩, 0⟩) ∧
    (∀ j, j ≤ 1 →
      (ReassemblerState.payloads
          ⟨[[1,2,3,4],[5,6,7,8,129,31,137,70]], some 1, ⟨0,0⟩, 0⟩).getD j [] ≠ []) ∧
    validateAndFinalizeTransfer ⟨0,0⟩ .NOMINAL 0
        [[1,2,3,4],[5,6,7,8,129,31,137,70]] 42 =
      some ⟨⟨0,0⟩, .NOMINAL, 0, [[1,2,3,4],[5,6,7,8]], some 42⟩ := by
  refine ⟨by decide, by rfl, ?_, by decide⟩
  intro j hj
  interval_cases j <;> decide

/-- Witness for C2: the characterization applied to a concrete
single-frame emission from the initial state. -/
theorem emission_iff_witness :
    GoodState initState ∧
    (((processFrame ⟨42, 100⟩ ⟨⟨5,5⟩, .FAST, 0, 0, true, [7]⟩ 100 initState).transfer =
        some ⟨⟨0,0⟩, .FAST, 0, [[7]], some 42⟩ ↔
      ∃ obs s3, phase1 ⟨⟨5,5⟩, .FAST, 0, 0, true, [7]⟩ 100 initState = .ok (obs, s3) ∧
        pureSize s3.payloads ≤ ((100 : Nat) : Int) ∧
        (∃ m, s3.max_index = some m ∧
          (m = 0 ∨ ∀ j, j ≤ m → s3.payloads.getD j [] ≠ [])) ∧
        TransferFrom.timestamp ⟨⟨0,0⟩, .FAST, 0, [[7]], some 42⟩ = s3.timestamp ∧
        TransferFrom.priority ⟨⟨0,0⟩, .FAST, 0, [[7]], some 42⟩ =
          Frame.priority ⟨⟨5,5⟩, .FAST, 0, 0, true, [7]⟩ ∧
        TransferFrom.transfer_id ⟨⟨0,0⟩, .FAST, 0, [[7]], some 42⟩ =
          Frame.transfer_id ⟨⟨5,5⟩, .FAST, 0, 0, true, [7]⟩ ∧
        validateAndFinalizeTransfer s3.timestamp
          (Frame.priority ⟨⟨5,5⟩, .FAST, 0, 0, true, [7]⟩)
          (Frame.transfer_id ⟨⟨5,5⟩, .FAST, 0, 0, true, [7]⟩) s3.payloads 42 =
          some ⟨⟨0,0⟩, .FAST, 0, [[7]], some 42⟩) ∧
      ((processFrame ⟨42, 100⟩ ⟨⟨5,5⟩, .FAST, 0, 0, true, [7]⟩ 100 initState).transfer =
          some ⟨⟨0,0⟩, .FAST, 0, [[7]], some 42⟩ →
        (processFrame ⟨42, 100⟩ ⟨⟨5,5⟩, .FAST, 0, 0, true, [7]⟩ 100 initState).state =
          ⟨[], none, Frame.timestamp ⟨⟨5,5⟩, .FAST, 0, 0, true, [7]⟩,
            Frame.transfer_id ⟨⟨5,5⟩, .FAST, 0, 0, true, [7]⟩ + 1⟩)) :=
  ⟨fun m hm => Option.noConfusion hm,
    emission_iff ⟨42, 100⟩ ⟨⟨5,5⟩, .FAST, 0, 0, true, [7]⟩ 100 initState
      (fun m hm => Option.noConfusion hm) ⟨⟨0,0⟩, .FAST, 0, [[7]], some 42⟩⟩

/-! ## Permutation invariance: canonical states -/

/-- The `i`-th frame of a well-formed `k`-frame transfer: common
timestamp, priority and transfer-ID, end-of-transfer exactly on the top
index, payload `P i`. -/
def mkFrame (tsC : Timestamp) (prio : Priority) (tid k : Nat)
    (P : Nat → List Nat) (i : Nat) : Frame :=
  ⟨tsC, prio, tid, i, decide (i = k - 1), P i⟩

/-- Largest delivered index (0 when none). -/
def canonMax (S : List Nat) : Nat := S.foldr max 0

/-- The payload list held after the indices in `S` have been delivered:
sparse up to the largest delivered index, with empty sentinels at
undelivered positions. -/
def canonPayloads (P : Nat → List Nat) (S : List Nat) : List (List Nat) :=
  if S = [] then []
  else (List.range (canonMax S + 1)).map (fun j => if j ∈ S then P j else [])

/-- The reassembler state after the indices in `S` of the transfer have
been delivered. -/
def canonState (tsC : Timestamp) (tid k : Nat) (P : Nat → List Nat)
    (S : List Nat) : ReassemblerState :=
  { payloads := canonPayloads P S,
    max_index := if k - 1 ∈ S then some (k - 1) else none,
    timestamp := tsC,
    transfer_id := tid }

theorem foldr_max_init (S : List Nat) (b : Nat) :
    S.foldr max b = max (S.foldr max 0) b := by
  induction S with
  | nil => simp
  | cons a S ih => simp [ih, Nat.max_assoc]

theorem canonMax_le (S : List Nat) : ∀ j ∈ S, j ≤ canonMax S := by
  induction S with
  | nil => simp
  | cons a S ih =>
    intro j hj
    rcases List.mem_cons.mp hj with h | h
    · subst h
      exact le_max_left _ _
    · exact le_trans (ih j h) (le_max_right _ _)

theorem canonMax_cons (a : Nat) (S : List Nat) :
    canonMax (a :: S) = max a (canonMax S) := rfl

theorem canonMax_mem (S : List Nat) (h : S ≠ []) : canonMax S ∈ S := by
  induction S with
  | nil => exact absurd rfl h
  | cons a S ih =>
    by_cases hS : S = []
    · subst hS
      simp [canonMax]
    · rcases le_total a (canonMax S) with hle | hle
      · rw [canonMax_cons, max_eq_right hle]
        exact List.mem_cons_of_mem a (ih hS)
      · rw [canonMax_cons, max_eq_left hle]
        exact List.mem_cons_self a S

theorem canonMax_append (S : List Nat) (i : Nat) :
    canonMax (S ++ [i]) = max (canonMax S) i := by
  rw [canonMax, List.foldr_append, foldr_max_init]
  simp [canonMax]

theorem canonPayloads_length (P : Nat → List Nat) (S : List Nat) (h : S ≠ []) :
    (canonPayloads P S).length = canonMax S + 1 := by
  simp [canonPayloads, h]

theorem canonPayloads_getD (P : Nat → List Nat) (S : List Nat) (j : Nat) :
    (canonPayloads P S).getD j [] = if j ∈ S then P j else [] := by
  by_cases hS : S = []
  · subst hS
    simp [canonPayloads]
  · by_cases hjr : j < canonMax S + 1
    · rw [List.getD_eq_getElem _ _ (by rw [canonPayloads_length P S hS]; exact hjr)]
      simp [canonPayloads, hS]
    · rw [List.getD_eq_default _ _ (by rw [canonPayloads_length P S hS]; omega)]
      have : j ∉ S := fun hmem => hjr (by have := canonMax_le S j hmem; omega)
      rw [if_neg this]

theorem storeAt_getD (l : List (List Nat)) (i : Nat) (p : List Nat) (j : Nat) :
    (storeAt l i p).getD j [] = if j = i then p else l.getD j [] := by
  have hrw : storeAt l i p = (l ++ List.replicate (i + 1 - l.length) []).set i p := rfl
  by_cases hj : j = i
  · subst hj
    have hl : j < ((l ++ List.replicate (j + 1 - l.length) []).set j p).length := by
      rw [← hrw, storeAt_length]
      omega
    rw [if_pos rfl, hrw, List.getD_eq_getElem _ _ hl, List.getElem_set, if_pos rfl]
  · rw [if_neg hj, hrw]
    by_cases hjlen : j < ((l ++ List.replicate (i + 1 - l.length) []).set i p).length
    · rw [List.getD_eq_getElem _ _ hjlen, List.getElem_set, if_neg (fun h => hj h.symm),
        List.getElem_append]
      split
      · exact (List.getD_eq_getElem _ _ (by assumption)).symm
      · rw [List.getElem_replicate]
        exact (List.getD_eq_default _ _ (by omega)).symm
    · rw [List.getD_eq_default _ _ (by omega), List.getD_eq_default]
      rw [← hrw, storeAt_length] at hjlen
      omega

theorem store_canon (P : Nat → List Nat) (S : List Nat) (i : Nat) :
    storeAt (canonPayloads P S) i (P i) = canonPayloads P (S ++ [i]) := by
  apply List.ext_getElem
  · rw [storeAt_length, canonPayloads_length P (S ++ [i]) (by simp), canonMax_append]
    by_cases hS : S = []
    · subst hS
      have h1 : canonPayloads P ([] : List Nat) = [] := by simp [canonPayloads]
      have h2 : canonMax ([] : List Nat) = 0 := rfl
      rw [h1, h2]
      simp
    · rw [canonPayloads_length P S hS]
      omega
  · intro j h1 h2
    rw [← List.getD_eq_getElem _ [] h1, ← List.getD_eq_getElem _ [] h2,
      storeAt_getD, canonPayloads_getD, canonPayloads_getD]
    by_cases hj : j = i
    · subst hj
      rw [if_pos rfl, if_pos (by simp)]
    · rw [if_neg hj]
      by_cases hjS : j ∈ S
      · rw [if_pos hjS, if_pos (by simp [hjS])]
      · rw [if_neg hjS, if_neg (by simp [hjS, hj])]

theorem sum_range_mono (g : Nat → Nat) (m k : Nat) (h : m ≤ k) :
    ((List.range m).map g).sum ≤ ((List.range k).map g).sum := by
  obtain ⟨d, rfl⟩ : ∃ d, k = m + d := ⟨k - m, by omega⟩
  rw [List.range_add, List.map_append, List.sum_append]
  exact Nat.le_add_right _ _

theorem canon_sum_le (P : Nat → List Nat) (S : List Nat) (k : Nat)
    (hsub : ∀ j ∈ S, j < k) :
    ((canonPayloads P S).map List.length).sum ≤
      (((List.range k).map P).map List.length).sum := by
  by_cases hS : S = []
  · subst hS
    simp [canonPayloads]
  · rw [canonPayloads, if_neg hS, List.map_map, List.map_map]
    have h1 : ((List.range (canonMax S + 1)).map
        (List.length ∘ fun j => if j ∈ S then P j else [])).sum ≤
        ((List.range (canonMax S + 1)).map (fun j => (P j).length)).sum := by
      apply List.sum_le_sum
      intro j _
      by_cases hjS : j ∈ S <;> simp [hjS, Function.comp]
    refine le_trans h1 ?_
    have h2 : canonMax S + 1 ≤ k := by
      have := hsub _ (canonMax_mem S hS)
      omega
    exact sum_range_mono _ _ _ h2

theorem canon_full (P : Nat → List Nat) (S : List Nat) (k : Nat) (hk : 1 ≤ k)
    (hS : S ≠ []) (hcov : ∀ j, j < k ↔ j ∈ S) :
    canonPayloads P S = (List.range k).map P := by
  have hmax : canonMax S = k - 1 := by
    apply le_antisymm
    · have := (hcov (canonMax S)).mpr (canonMax_mem S hS)
      omega
    · exact canonMax_le S (k - 1) ((hcov (k - 1)).mp (by omega))
  rw [canonPayloads, if_neg hS, hmax, show k - 1 + 1 = k by omega]
  apply List.map_congr_left
  intro j hj
  rw [if_pos ((hcov j).mp (List.mem_range.mp hj))]

theorem stepStore_eq_ok (f : Frame) (obs1 : List Obs) (s2 : ReassemblerState)
    (hc : ∀ m, s2.max_index = some m →
      ¬((m : Int) < max (f.index : Int) ((s2.payloads.length : Int) - 1))) :
    stepStore f obs1 s2 =
      .ok (obs1, { s2 with payloads := storeAt s2.payloads f.index f.payload }) := by
  rcases hM : s2.max_index with _ | m
  · rw [stepStore, hM]
  · rw [stepStore, hM]
    dsimp only
    rw [if_neg (hc m hM)]

theorem phase1Tail_canon (tsC : Timestamp) (prio : Priority) (tid k : Nat)
    (P : Nat → List Nat) (S : List Nat) (i : Nat)
    (hik : i < k) (hiS : i ∉ S) (hsub : ∀ j ∈ S, j < k) :
    phase1Tail (mkFrame tsC prio tid k P i) [] (canonState tsC tid k P S) =
      .ok ([], canonState tsC tid k P (S ++ [i])) := by
  have hlenb : (canonPayloads P S).length ≤ k := by
    by_cases hS : S = []
    · subst hS
      simp [canonPayloads]
    · rw [canonPayloads_length P S hS]
      have := hsub _ (canonMax_mem S hS)
      omega
  rw [phase1Tail]
  rw [if_neg (show ¬ (mkFrame tsC prio tid k P i).transfer_id <
      (canonState tsC tid k P S).transfer_id from lt_irrefl tid)]
  by_cases hieq : i = k - 1
  · have heot : (mkFrame tsC prio tid k P i).end_of_transfer = true := by
      simp [mkFrame, hieq]
    rw [if_pos heot]
    rw [show (canonState tsC tid k P S).max_index = none from by
      show (if k - 1 ∈ S then some (k - 1) else none) = none
      exact if_neg (fun hmem => hiS (hieq ▸ hmem))]
    dsimp only
    have hc : ∀ m, ({ canonState tsC tid k P S with
        max_index := some (mkFrame tsC prio tid k P i).index } :
          ReassemblerState).max_index = some m →
        ¬((m : Int) < max ((mkFrame tsC prio tid k P i).index : Int)
          ((({ canonState tsC tid k P S with
            max_index := some (mkFrame tsC prio tid k P i).index } :
              ReassemblerState).payloads.length : Int) - 1)) := by
      intro m hm
      rw [show ({ canonState tsC tid k P S with
          max_index := some (mkFrame tsC prio tid k P i).index } :
            ReassemblerState).max_index = some i from rfl] at hm
      injection hm with hmi
      subst hmi
      rw [show (mkFrame tsC prio tid k P i).index = i from rfl,
        show ({ canonState tsC tid k P S with
          max_index := some (mkFrame tsC prio tid k P i).index } :
            ReassemblerState).payloads = canonPayloads P S from rfl]
      omega
    rw [stepStore_eq_ok _ _ _ hc]
    have hmx : (if k - 1 ∈ S ++ [i] then some (k - 1) else none) = some i := by
      rw [if_pos (by rw [← hieq]; exact List.mem_append_right _ (by simp)), ← hieq]
    show Except.ok ([],
        (⟨storeAt (canonPayloads P S) i (P i), some i, tsC, tid⟩ : ReassemblerState)) =
      Except.ok (([] : List Obs), canonState tsC tid k P (S ++ [i]))
    rw [store_canon P S i, canonState, hmx]
  · have heot : (mkFrame tsC prio tid k P i).end_of_transfer = false := by
      simp [mkFrame]
      omega
    rw [if_neg (by rw [heot]; exact Bool.false_ne_true)]
    have hc : ∀ m, (canonState tsC tid k P S).max_index = some m →
        ¬((m : Int) < max ((mkFrame tsC prio tid k P i).index : Int)
          (((canonState tsC tid k P S).payloads.length : Int) - 1)) := by
      intro m hm
      rw [show (canonState tsC tid k P S).max_index =
          (if k - 1 ∈ S then some (k - 1) else none) from rfl] at hm
      by_cases hkS : k - 1 ∈ S
      · rw [if_pos hkS] at hm
        injection hm with hmi
        subst hmi
        rw [show (mkFrame tsC prio tid k P i).index = i from rfl,
          show (canonState tsC tid k P S).payloads = canonPayloads P S from rfl]
        omega
      · rw [if_neg hkS] at hm
        exact Option.noConfusion hm
    rw [stepStore_eq_ok _ _ _ hc]
    have hmem : (k - 1 ∈ S ++ [i]) ↔ (k - 1 ∈ S) := by
      rw [List.mem_append]
      constructor
      · rintro (h | h)
        · exact h
        · have h' : k - 1 = i := by simpa using h
          exact absurd h'.symm hieq
      · exact Or.inl
    show Except.ok ([], (⟨storeAt (canonPayloads P S) i (P i),
        (if k - 1 ∈ S then some (k - 1) else none), tsC, tid⟩ : ReassemblerState)) =
      Except.ok (([] : List Obs), canonState tsC tid k P (S ++ [i]))
    rw [store_canon P S i, canonState, if_congr hmem rfl rfl]

theorem phase2_ok_eval_none (cfg : Config) (f : Frame) (obs1 : List Obs)
    (s3 : ReassemblerState)
    (hsize : ¬((cfg.max_payload_size_bytes : Int) < pureSize s3.payloads))
    (hm : s3.max_index = none) :
    phase2 cfg f (.ok (obs1, s3)) = ⟨none, obs1, s3⟩ := by
  simp only [phase2]
  rw [if_neg hsize, hm]

theorem phase2_ok_eval_incomplete (cfg : Config) (f : Frame) (obs1 : List Obs)
    (s3 : ReassemblerState) (m : Nat)
    (hsize : ¬((cfg.max_payload_size_bytes : Int) < pureSize s3.payloads))
    (hm : s3.max_index = some m)
    (hcomp : 0 < m ∧ ¬ s3.payloads.all (fun p => !p.isEmpty) = true) :
    phase2 cfg f (.ok (obs1, s3)) = ⟨none, obs1, s3⟩ := by
  simp only [phase2]
  rw [if_neg hsize, hm]
  dsimp only
  rw [if_pos hcomp]

theorem phase2_ok_eval_emit (cfg : Config) (f : Frame) (obs1 : List Obs)
    (s3 : ReassemblerState) (m : Nat) (tr : TransferFrom)
    (hsize : ¬((cfg.max_payload_size_bytes : Int) < pureSize s3.payloads))
    (hm : s3.max_index = some m)
    (hcomp : ¬(0 < m ∧ ¬ s3.payloads.all (fun p => !p.isEmpty) = true))
    (hval : validateAndFinalizeTransfer s3.timestamp f.priority f.transfer_id
      s3.payloads cfg.source_node_id = some tr) :
    phase2 cfg f (.ok (obs1, s3)) =
      ⟨some tr, obs1, ⟨[], none, f.timestamp, f.transfer_id + 1⟩⟩ := by
  simp only [phase2]
  rw [if_neg hsize, hm]
  dsimp only
  rw [if_neg hcomp, hval]
  simp [ReassemblerState.restart]

theorem canon_pure_size (cfg : Config) (P : Nat → List Nat) (S' : List Nat) (k : Nat)
    (hS' : S' ≠ []) (hsub : ∀ j ∈ S', j < k)
    (hlim : ((((List.range k).map P).map List.length).sum : Int) - (CRC_SIZE_BYTES : Int) ≤
      (cfg.max_payload_size_bytes : Int))
    (h0 : ((P 0).length : Int) ≤ (cfg.max_payload_size_bytes : Int)) :
    ¬((cfg.max_payload_size_bytes : Int) < pureSize (canonPayloads P S')) := by
  rw [pureSize]
  by_cases hlen : 1 < (canonPayloads P S').length
  · rw [if_pos hlen]
    have hs := canon_sum_le P S' k hsub
    omega
  · rw [if_neg hlen]
    have hl1 : (canonPayloads P S').length = canonMax S' + 1 := canonPayloads_length P S' hS'
    have hm0 : canonMax S' = 0 := by omega
    have h0S : 0 ∈ S' := hm0 ▸ canonMax_mem S' hS'
    have hone : canonPayloads P S' = [P 0] := by
      rw [canonPayloads, if_neg hS', hm0,
        show List.range 1 = [0] from rfl]
      simp [h0S]
    rw [hone]
    simp only [List.map_cons, List.map_nil, List.sum_cons, List.sum_nil]
    omega

theorem phase2_canon_incomplete (cfg : Config) (f : Frame) (tsC : Timestamp)
    (tid k : Nat) (P : Nat → List Nat) (S' : List Nat)
    (hk : 2 ≤ k) (hS' : S' ≠ []) (hsub : ∀ j ∈ S', j < k)
    (hlim : ((((List.range k).map P).map List.length).sum : Int) - (CRC_SIZE_BYTES : Int) ≤
      (cfg.max_payload_size_bytes : Int))
    (h0 : ((P 0).length : Int) ≤ (cfg.max_payload_size_bytes : Int))
    (hmiss : ∃ j, j < k ∧ j ∉ S') :
    phase2 cfg f (.ok ([], canonState tsC tid k P S')) =
      ⟨none, [], canonState tsC tid k P S'⟩ := by
  have hsize : ¬((cfg.max_payload_size_bytes : Int) <
      pureSize (canonState tsC tid k P S').payloads) :=
    canon_pure_size cfg P S' k hS' hsub hlim h0
  by_cases hkS : k - 1 ∈ S'
  · refine phase2_ok_eval_incomplete cfg f [] (canonState tsC tid k P S') (k - 1) hsize
      (show (canonState tsC tid k P S').max_index = some (k - 1) from if_pos hkS)
      ⟨by omega, ?_⟩
    obtain ⟨j, hjk, hjn⟩ := hmiss
    have hmax' : canonMax S' = k - 1 := by
      apply le_antisymm
      · have := hsub _ (canonMax_mem S' hS')
        omega
      · exact canonMax_le S' _ hkS
    have hjlen : j < (canonPayloads P S').length := by
      rw [canonPayloads_length P S' hS', hmax']
      omega
    have hjval : (canonPayloads P S')[j] = [] := by
      have hgd := canonPayloads_getD P S' j
      rw [List.getD_eq_getElem _ _ hjlen] at hgd
      rw [hgd, if_neg hjn]
    intro hall
    rw [show (canonState tsC tid k P S').payloads = canonPayloads P S' from rfl,
      List.all_eq_true] at hall
    have := hall _ (List.getElem_mem hjlen)
    rw [hjval] at this
    simp at this
  · exact phase2_ok_eval_none cfg f [] (canonState tsC tid k P S') hsize
      (show (canonState tsC tid k P S').max_index = none from if_neg hkS)

theorem phase2_canon_complete (cfg : Config) (tsC : Timestamp) (prio : Priority)
    (tid k : Nat) (P : Nat → List Nat) (S' : List Nat) (i : Nat)
    (hk : 2 ≤ k) (hP : ∀ i, i < k → P i ≠ [])
    (hcrc : checkResidue (crcNewFragments ((List.range k).map P)) = true)
    (hsz : CRC_SIZE_BYTES < (((List.range k).map P).map List.length).sum)
    (hlim : ((((List.range k).map P).map List.length).sum : Int) - (CRC_SIZE_BYTES : Int) ≤
      (cfg.max_payload_size_bytes : Int))
    (h0 : ((P 0).length : Int) ≤ (cfg.max_payload_size_bytes : Int))
    (hcov : ∀ j, j < k ↔ j ∈ S') :
    phase2 cfg (mkFrame tsC prio tid k P i) (.ok ([], canonState tsC tid k P S')) =
      ⟨some ⟨tsC, prio, tid, dropCrc ((List.range k).map P), some cfg.source_node_id⟩,
        [], ⟨[], none, tsC, tid + 1⟩⟩ := by
  have hS' : S' ≠ [] := by
    intro h
    subst h
    exact absurd ((hcov 0).mp (by omega)) (by simp)
  have hsub : ∀ j ∈ S', j < k := fun j hj => (hcov j).mpr hj
  have hfull : canonPayloads P S' = (List.range k).map P :=
    canon_full P S' k (by omega) hS' hcov
  have hsize : ¬((cfg.max_payload_size_bytes : Int) <
      pureSize (canonState tsC tid k P S').payloads) :=
    canon_pure_size cfg P S' k hS' hsub hlim h0
  have hkm : k - 1 ∈ S' := (hcov (k - 1)).mp (by omega)
  have hcomp : ¬(0 < k - 1 ∧
      ¬ (canonState tsC tid k P S').payloads.all (fun p => !p.isEmpty) = true) := by
    rintro ⟨-, hno⟩
    apply hno
    rw [show (canonState tsC tid k P S').payloads = canonPayloads P S' from rfl,
      hfull, List.all_eq_true]
    intro p hp
    obtain ⟨j, hjl, hpj⟩ := List.mem_map.mp hp
    have hPj := hP j (List.mem_range.mp hjl)
    rw [← hpj]
    rcases hv : P j with _ | ⟨a, tl⟩
    · exact absurd hv hPj
    · rfl
  have hval : validateAndFinalizeTransfer tsC prio tid (canonPayloads P S')
      cfg.source_node_id =
      some ⟨tsC, prio, tid, dropCrc ((List.range k).map P), some cfg.source_node_id⟩ := by
    rw [hfull, validateAndFinalizeTransfer,
      if_pos (show 1 < ((List.range k).map P).length by
        rw [List.length_map, List.length_range]; omega),
      if_pos ⟨hsz, hcrc⟩]
  exact phase2_ok_eval_emit cfg (mkFrame tsC prio tid k P i) []
    (canonState tsC tid k P S') (k - 1)
    ⟨tsC, prio, tid, dropCrc ((List.range k).map P), some cfg.source_node_id⟩
    hsize (show (canonState tsC tid k P S').max_index = some (k - 1) from if_pos hkm)
    hcomp hval

theorem processFrame_canon (cfg : Config) (tsC : Timestamp) (prio : Priority)
    (tid k : Nat) (P : Nat → List Nat) (timeout : Int) (S : List Nat) (i : Nat)
    (hik : i < k) (hiS : i ∉ S) (hsub : ∀ j ∈ S, j < k)
    (hPi : P i ≠ []) (ht : 0 ≤ timeout) :
    processFrame cfg (mkFrame tsC prio tid k P i) timeout (canonState tsC tid k P S) =
      phase2 cfg (mkFrame tsC prio tid k P i)
        (.ok ([], canonState tsC tid k P (S ++ [i]))) := by
  have hA : ¬(¬((mkFrame tsC prio tid k P i).index = 0 ∧
      (mkFrame tsC prio tid k P i).end_of_transfer = true) ∧
      (mkFrame tsC prio tid k P i).payload = []) := fun h => hPi h.2
  have hB : ¬((canonState tsC tid k P S).transfer_id <
      (mkFrame tsC prio tid k P i).transfer_id ∨
      timeout < ((mkFrame tsC prio tid k P i).timestamp.monotonic_ns : Int) -
        ((canonState tsC tid k P S).timestamp.monotonic_ns : Int)) := by
    push_neg
    refine ⟨le_refl tid, ?_⟩
    show (tsC.monotonic_ns : Int) - (tsC.monotonic_ns : Int) ≤ timeout
    omega
  rw [processFrame, phase1, if_neg hA, if_neg hB]
  rw [phase1Tail_canon tsC prio tid k P S i hik hiS hsub]

theorem processFrame_init_canon (cfg : Config) (tsC : Timestamp) (prio : Priority)
    (tid k : Nat) (P : Nat → List Nat) (timeout : Int) (i : Nat)
    (hPi : P i ≠ []) (htid : 1 ≤ tid) :
    processFrame cfg (mkFrame tsC prio tid k P i) timeout initState =
      phase2 cfg (mkFrame tsC prio tid k P i)
        (phase1Tail (mkFrame tsC prio tid k P i) [] (canonState tsC tid k P [])) := by
  have hA : ¬(¬((mkFrame tsC prio tid k P i).index = 0 ∧
      (mkFrame tsC prio tid k P i).end_of_transfer = true) ∧
      (mkFrame tsC prio tid k P i).payload = []) := fun h => hPi h.2
  have hB : initState.transfer_id < (mkFrame tsC prio tid k P i).transfer_id ∨
      timeout < ((mkFrame tsC prio tid k P i).timestamp.monotonic_ns : Int) -
        (initState.timestamp.monotonic_ns : Int) := Or.inl htid
  rw [processFrame, phase1, if_neg hA, if_pos hB,
    if_pos (show initState.payloads = [] from rfl)]
  rfl

theorem runFrames_canon (cfg : Config) (tsC : Timestamp) (prio : Priority)
    (tid k : Nat) (P : Nat → List Nat) (timeout : Int)
    (hk : 2 ≤ k) (ht : 0 ≤ timeout) (hP : ∀ i, i < k → P i ≠ [])
    (hcrc : checkResidue (crcNewFragments ((List.range k).map P)) = true)
    (hsz : CRC_SIZE_BYTES < (((List.range k).map P).map List.length).sum)
    (hlim : ((((List.range k).map P).map List.length).sum : Int) - (CRC_SIZE_BYTES : Int) ≤
      (cfg.max_payload_size_bytes : Int))
    (h0 : ((P 0).length : Int) ≤ (cfg.max_payload_size_bytes : Int)) :
    ∀ rest S, S ≠ [] → rest ≠ [] → (S ++ rest).Nodup →
      (∀ j ∈ S ++ rest, j < k) → (∀ j, j < k → j ∈ S ++ rest) →
      runFrames cfg timeout (rest.map (mkFrame tsC prio tid k P))
          (canonState tsC tid k P S) =
        ([⟨tsC, prio, tid, dropCrc ((List.range k).map P), some cfg.source_node_id⟩],
          [], ⟨[], none, tsC, tid + 1⟩) := by
  intro rest
  induction rest with
  | nil =>
    intro S _ hre
    exact absurd rfl hre
  | cons i rest' ih =>
    intro S hS _ hnd hub hcov
    have hik : i < k := hub i (List.mem_append_right _ (by simp))
    have hiS : i ∉ S := by
      intro hmem
      exact List.disjoint_of_nodup_append hnd hmem (by simp)
    have hsubS : ∀ j ∈ S, j < k := fun j hj => hub j (List.mem_append_left _ hj)
    by_cases hre2 : rest' = []
    · subst hre2
      have hcov' : ∀ j, j < k ↔ j ∈ S ++ [i] := by
        intro j
        constructor
        · exact fun hj => hcov j hj
        · exact fun hj => hub j hj
      simp only [List.map, runFrames]
      rw [processFrame_canon cfg tsC prio tid k P timeout S i hik hiS hsubS
        (hP i hik) ht]
      rw [phase2_canon_complete cfg tsC prio tid k P (S ++ [i]) i hk hP hcrc hsz
        hlim h0 hcov']
      simp
    · have hmiss : ∃ j, j < k ∧ j ∉ S ++ [i] := by
        obtain ⟨j2, rest'', hj2⟩ : ∃ j2 rest'', rest' = j2 :: rest'' := by
          rcases rest' with _ | ⟨a, b⟩
          · exact absurd rfl hre2
          · exact ⟨a, b, rfl⟩
        refine ⟨j2, hub j2 (List.mem_append_right _ (by simp [hj2])), ?_⟩
        rw [List.mem_append]
        rintro (h | h)
        · exact List.disjoint_of_nodup_append hnd h (by simp [hj2])
        · have hji : j2 = i := by simpa using h
          have hnd2 : (i :: rest').Nodup := (List.nodup_append.mp hnd).2.1
          have : i ∉ rest' := (List.nodup_cons.mp hnd2).1
          exact this (by simp [hj2, ← hji])
      have hassoc : (S ++ [i]) ++ rest' = S ++ i :: rest' := by simp
      simp only [List.map, runFrames]
      rw [processFrame_canon cfg tsC prio tid k P timeout S i hik hiS hsubS
        (hP i hik) ht]
      rw [phase2_canon_incomplete cfg (mkFrame tsC prio tid k P i) tsC tid k P
        (S ++ [i]) hk (by simp) (fun j hj => by
          rw [List.mem_append] at hj
          rcases hj with h | h
          · exact hsubS j h
          · have : j = i := by simpa using h
            subst this
            exact hik)
        hlim h0 hmiss]
      dsimp only
      rw [ih (S ++ [i]) (by simp) hre2 (by rw [hassoc]; exact hnd)
        (by rw [hassoc]; exact hub) (by rw [hassoc]; exact hcov)]
      simp

/-- C4 (amended): for every well-formed multi-frame transfer whose `k ≥ 2`
frames share one timestamp and one priority and carry a positive
transfer-ID, with non-empty payloads on distinct indices `0..k-1`, the
end-of-transfer flag exactly on index `k-1`, a correct appended CRC,
total length above `CRC_SIZE`, pure size within the limit, and the
index-0 fragment alone within the limit — delivering the frames to a
fresh reassembler in any permutation emits exactly one transfer, always
the same one (the canonical timestamp, priority, transfer-ID, CRC-trimmed
fragments and source node), with no errors, leaving the reset state. -/
theorem permutation_invariant (cfg : Config) (tsC : Timestamp) (prio : Priority)
    (tid k : Nat) (P : Nat → List Nat) (timeout : Int)
    (hk : 2 ≤ k) (htid : 1 ≤ tid) (ht : 0 ≤ timeout)
    (hP : ∀ i, i < k → P i ≠ [])
    (hcrc : checkResidue (crcNewFragments ((List.range k).map P)) = true)
    (hsz : CRC_SIZE_BYTES < (((List.range k).map P).map List.length).sum)
    (hlim : ((((List.range k).map P).map List.length).sum : Int) - (CRC_SIZE_BYTES : Int) ≤
      (cfg.max_payload_size_bytes : Int))
    (h0 : ((P 0).length : Int) ≤ (cfg.max_payload_size_bytes : Int)) :
    ∀ order : List Nat, order.Perm (List.range k) →
      runFrames cfg timeout (order.map (mkFrame tsC prio tid k P)) initState =
        ([⟨tsC, prio, tid, dropCrc ((List.range k).map P), some cfg.source_node_id⟩],
          [], ⟨[], none, tsC, tid + 1⟩) := by
  intro order hperm
  have hnd : order.Nodup := hperm.nodup_iff.mpr (List.nodup_range k)
  have hub : ∀ j ∈ order, j < k := fun j hj => List.mem_range.mp (hperm.mem_iff.mp hj)
  rcases order with _ | ⟨i, rest⟩
  · exfalso
    have := hperm.length_eq
    rw [List.length_range] at this
    simp at this
    omega
  · have hik : i < k := hub i (by simp)
    have hrest : rest ≠ [] := by
      intro h
      subst h
      have := hperm.length_eq
      rw [List.length_range] at this
      simp at this
      omega
    have hmiss : ∃ j, j < k ∧ j ∉ ([i] : List Nat) := by
      obtain ⟨j2, rest'', hj2⟩ : ∃ a b, rest = a :: b := by
        rcases rest with _ | ⟨a, b⟩
        · exact absurd rfl hrest
        · exact ⟨a, b, rfl⟩
      refine ⟨j2, hub j2 (by simp [hj2]), ?_⟩
      have hnd2 : i ∉ rest := (List.nodup_cons.mp hnd).1
      intro hmem
      have hji : j2 = i := by simpa using hmem
      exact hnd2 (by simp [hj2, ← hji])
    simp only [List.map, runFrames]
    rw [processFrame_init_canon cfg tsC prio tid k P timeout i (hP i hik) htid]
    rw [phase1Tail_canon tsC prio tid k P [] i hik (by simp) (by simp)]
    rw [show (([] : List Nat) ++ [i]) = [i] from rfl]
    rw [phase2_canon_incomplete cfg (mkFrame tsC prio tid k P i) tsC tid k P [i]
      hk (by simp) (fun j hj => by
        have : j = i := by simpa using hj
        subst this
        exact hik)
      hlim h0 hmiss]
    dsimp only
    rw [runFrames_canon cfg tsC prio tid k P timeout hk ht hP hcrc hsz hlim h0
      rest [i] (by simp) hrest hnd hub (fun j hj => hperm.mem_iff.mpr
        (List.mem_range.mpr hj))]
    simp

/-- Witness for C4: a concrete two-frame transfer (user payload
`[1,2,3]` split `[1,2]` / `[3]` plus its CRC-32C) delivered in reversed
order emits the canonical transfer. -/
theorem permutation_invariant_witness :
    ((∀ i, i < 2 →
        (fun i => if i = 0 then ([1,2] : List Nat) else [3,30,242,48,241]) i ≠ []) ∧
      checkResidue (crcNewFragments ((List.range 2).map
        (fun i => if i = 0 then ([1,2] : List Nat) else [3,30,242,48,241]))) = true ∧
      ([1,0] : List Nat).Perm (List.range 2)) ∧
    runFrames ⟨9, 50⟩ 1000 (([1,0] : List Nat).map (mkFrame ⟨1,1⟩ .HIGH 5 2
        (fun i => if i = 0 then ([1,2] : List Nat) else [3,30,242,48,241]))) initState =
      ([⟨⟨1,1⟩, .HIGH, 5,
          dropCrc ((List.range 2).map
            (fun i => if i = 0 then ([1,2] : List Nat) else [3,30,242,48,241])),
          some 9⟩], [], ⟨[], none, ⟨1,1⟩, 6⟩) :=
  ⟨⟨by decide, by decide, by decide⟩,
    permutation_invariant ⟨9, 50⟩ ⟨1,1⟩ .HIGH 5 2
      (fun i => if i = 0 then ([1,2] : List Nat) else [3,30,242,48,241]) 1000
      (by omega) (by omega) (by omega) (by decide) (by decide) (by decide)
      (by decide) (by decide) [1,0] (by decide)⟩

/-- Counterexample to C4 as stated: (i) when the frames of a well-formed
transfer carry different reception timestamps, the emitted transfer
depends on the delivery order (its timestamp is the first-delivered
frame's); (ii) when the pure size equals the limit but the index-0
fragment alone exceeds it, one order emits while the other aborts with
`PAYLOAD_SIZE_EXCEEDS_LIMIT` (the size ceiling runs per-frame before
completion), although the total size is within the limit. -/
theorem permutation_invariant_counterexample :
    ((runFrames ⟨9, 100⟩ 1000000
        [⟨⟨1000,1000⟩, .NOMINAL, 5, 0, false, [1,2]⟩,
         ⟨⟨2000,2000⟩, .NOMINAL, 5, 1, true, [3,30,242,48,241]⟩] initState).1 ≠ [] ∧
      (runFrames ⟨9, 100⟩ 1000000
        [⟨⟨2000,2000⟩, .NOMINAL, 5, 1, true, [3,30,242,48,241]⟩,
         ⟨⟨1000,1000⟩, .NOMINAL, 5, 0, false, [1,2]⟩] initState).1 ≠ [] ∧
      (runFrames ⟨9, 100⟩ 1000000
        [⟨⟨1000,1000⟩, .NOMINAL, 5, 0, false, [1,2]⟩,
         ⟨⟨2000,2000⟩, .NOMINAL, 5, 1, true, [3,30,242,48,241]⟩] initState).1 ≠
      (runFrames ⟨9, 100⟩ 1000000
        [⟨⟨2000,2000⟩, .NOMINAL, 5, 1, true, [3,30,242,48,241]⟩,
         ⟨⟨1000,1000⟩, .NOMINAL, 5, 0, false, [1,2]⟩] initState).1) ∧
    (pureSize [[1,2,3,4,5,6,7,8,9,10,105,219], [25,178]] ≤ (10 : Int) ∧
      (runFrames ⟨9, 10⟩ 100
        [⟨⟨0,0⟩, .NOMINAL, 1, 1, true, [25,178]⟩,
         ⟨⟨0,0⟩, .NOMINAL, 1, 0, false, [1,2,3,4,5,6,7,8,9,10,105,219]⟩] initState).1 ≠ [] ∧
      (runFrames ⟨9, 10⟩ 100
        [⟨⟨0,0⟩, .NOMINAL, 1, 0, false, [1,2,3,4,5,6,7,8,9,10,105,219]⟩,
         ⟨⟨0,0⟩, .NOMINAL, 1, 1, true, [25,178]⟩] initState).1 = []) := by
  refine ⟨⟨by decide, by decide, by decide⟩, by decide, by decide, by decide⟩
